import Mathlib

/-!
Verification development for the `geo_analyzer` package
(`Mindverse-GEO-Analysis`): a shallow embedding, in Lean 4, of the
multi-provider LLM orchestration subsystem (`src/geo_analyzer/llm.py`),
the request model (`src/geo_analyzer/models.py`) and the simulation
engine (`src/geo_analyzer/engine.py`), together with theorems settling
the behavioural claims about that code.

Modelling conventions:
* Python `float` arithmetic is embedded as exact rational arithmetic
  (`ℚ`).  All constants appearing in the source are small decimal
  literals, and no claim depends on binary floating-point rounding.
* Python `round` (banker's rounding, round-half-to-even) is embedded as
  `pyRound`; `round(x, 2)` as `pyRound2`.
* Wall-clock reads (`time.time()` / injected `time_fn`) are embedded as
  explicit rational-valued parameters supplied by the environment, one
  per read, exactly where the source reads the clock.
* Python `str.lower` is embedded per-character; for the ASCII + CJK
  strings of this code base the two agree (CJK characters are fixed
  points of both).
* Network responses are environment input: the orchestrator's call loop
  is parameterised by an oracle giving, for each (iteration, platform,
  prompt) triple, either the provider's response content (plus finish
  reason and latency) or `none` for a call whose 3-attempt backoff was
  exhausted (`LLMClientError`).  The sensitive-content check on the
  response is embedded, not oracle-decided, mirroring
  `LLMOrchestrator._invoke_client`.
-/

/-! ## String utilities (Python semantics) -/

/-- Python whitespace characters relevant to `str.strip` / `\s`
(ASCII subset; the repository's literals contain no exotic spaces). -/
def isPySpace (c : Char) : Bool :=
  c = ' ' || c = '\t' || c = '\n' || c = '\r' || c = '\x0b' || c = '\x0c'

/-- Python `str.lower`, per character (ASCII case-mapping; identity on
CJK, matching Python on the strings used by this code base). -/
def lowerStr (s : String) : String :=
  String.mk (s.toList.map Char.toLower)

/-- Does `needle` occur as a contiguous sublist of `hay`? -/
def listContains : List Char → List Char → Bool
  | hay, needle =>
    match hay with
    | [] => needle.isEmpty
    | _ :: t => needle.isPrefixOf hay || listContains t needle

/-- Python `needle in hay` substring containment. -/
def strContains (hay needle : String) : Bool :=
  listContains hay.toList needle.toList

/-- Python `str.strip()` with no argument. -/
def pyStrip (s : String) : String :=
  String.mk (((s.toList.dropWhile isPySpace).reverse.dropWhile isPySpace).reverse)

/-- Character class `[A-Za-z0-9\-]` of the mention regex
`LLMOrchestrator._MENTION_RE` (`llm.py`). -/
def isMentionWordChar (c : Char) : Bool :=
  ('A' ≤ c && c ≤ 'Z') || ('a' ≤ c && c ≤ 'z') || ('0' ≤ c && c ≤ '9') || c = '-'

/-- ASCII uppercase, the `[A-Z]` head of the mention regex. -/
def isAsciiUpper (c : Char) : Bool :=
  'A' ≤ c && c ≤ 'Z'

/-- Emit a candidate token (held in reverse) if it matched
`[A-Z][A-Za-z0-9\-]+`, i.e. has length ≥ 2. -/
def emitMention (tokRev : List Char) (acc : List String) : List String :=
  if 2 ≤ tokRev.length then String.mk tokRev.reverse :: acc else acc

/-- Single pass of `re.findall(r"[A-Z][A-Za-z0-9\-]+", ·)`:
`tokRev` holds the candidate match in reverse (nonempty exactly while a
match attempt starting at an ASCII uppercase letter is open). -/
def mentionsAux : List Char → List Char → List String → List String
  | [], tokRev, acc => (emitMention tokRev acc).reverse
  | c :: cs, [], acc =>
    if isAsciiUpper c then mentionsAux cs [c] acc else mentionsAux cs [] acc
  | c :: cs, t :: ts, acc =>
    if isMentionWordChar c then mentionsAux cs (c :: t :: ts) acc
    else mentionsAux cs [] (emitMention (t :: ts) acc)

/-- `LLMOrchestrator._extract_mentions` (`llm.py` line 719):
all matches of `[A-Z][A-Za-z0-9\-]+`. -/
def extract_mentions (text : String) : List String :=
  mentionsAux text.toList [] []

/-- First-occurrence deduplication, as performed by the
`dict.setdefault` loops in `_inline_competitors` and
`_fallback_competitor`. -/
def dedupFirstAux : List String → List String → List String
  | [], acc => acc.reverse
  | x :: xs, acc => if x ∈ acc then dedupFirstAux xs acc else dedupFirstAux xs (x :: acc)

def dedupFirst (l : List String) : List String := dedupFirstAux l []

/-- Floor of a rational (computably, so that proofs can evaluate it). -/
def ratFloor (q : ℚ) : ℤ :=
  Int.fdiv q.num (q.den : ℤ)

/-- Python 3 `round` to an integer: round-half-to-even. -/
def pyRound (q : ℚ) : ℤ :=
  let f : ℤ := ratFloor q
  let r : ℚ := q - (f : ℚ)
  if r < 1/2 then f
  else if 1/2 < r then f + 1
  else if f % 2 = 0 then f else f + 1

/-- Python 3 `round(q, 2)`. -/
def pyRound2 (q : ℚ) : ℚ :=
  (pyRound (q * 100) : ℚ) / 100

/-! ## `models.py`: industries, sensitive keywords, requests -/

/-- `Industry` enum (`models.py` lines 11-30). -/
inductive Industry where
  | saas
  | consumerElectronics
  | finance
  | education
  | other
deriving DecidableEq, Repr

/-- `Industry.value` strings. -/
def Industry.value : Industry → String
  | .saas => "SaaS"
  | .consumerElectronics => "消费电子"
  | .finance => "金融"
  | .education => "教育"
  | .other => "其他"

/-- `Industry.benchmark_rate` (`models.py` lines 18-26). -/
def Industry.benchmark_rate : Industry → ℕ
  | .saas => 27
  | .consumerElectronics => 25
  | .finance => 24
  | .education => 22
  | .other => 20

/-- `SENSITIVE_KEYWORDS` (`models.py` lines 33-40). -/
def SENSITIVE_KEYWORDS : List String :=
  ["政治", "暴力", "色情", "terror", "weapon", "极端"]

/-- `DiagnosisRequest` dataclass (`models.py` lines 45-51). -/
structure DiagnosisRequest where
  company_name : String
  product_name : String
  product_description : String
  industry : Industry
  work_email : String
deriving DecidableEq, Repr

/-- `EMAIL_RE = ^[^@\s]+@[^@\s]+\.[^@\s]+$` (`models.py` line 42): no
whitespace anywhere, exactly one `@` with a nonempty local part, and a
`.` in the domain part that has nonempty text on both sides. -/
def emailOk (s : String) : Bool :=
  let cs := s.toList
  cs.all (fun c => !isPySpace c) &&
  (cs.count '@' = 1) &&
  (let localPart := cs.takeWhile (· ≠ '@')
   let dom := (cs.dropWhile (· ≠ '@')).drop 1
   localPart ≠ [] &&
   (List.range dom.length).any (fun j =>
     dom.getD j ' ' = '.' && 1 ≤ j && j + 1 < dom.length))

/-- `DiagnosisRequest._contains_sensitive` (`models.py` lines 68-70):
keyword containment over the lower-cased text. -/
def contains_sensitive (text : String) : Bool :=
  SENSITIVE_KEYWORDS.any (fun k => strContains (lowerStr text) (lowerStr k))

/-- Outcome of `DiagnosisRequest.validate` (`models.py` lines 53-66):
`validationError` for `ValidationError`, `sensitiveError` for
`SensitiveContentError`, `ok` when no exception is raised. -/
inductive ValidateOutcome where
  | ok
  | validationError
  | sensitiveError
deriving DecidableEq, Repr

/-- `DiagnosisRequest.validate` (`models.py` lines 53-66).  Note that
the sensitive-keyword scan is applied to the (stripped) product
description only — not to the company name or product name. -/
def DiagnosisRequest.validate (r : DiagnosisRequest) : ValidateOutcome :=
  if pyStrip r.company_name = "" then .validationError
  else if pyStrip r.product_name = "" then .validationError
  else
    let description := pyStrip r.product_description
    if description.length < 10 then .validationError
    else if !emailOk (pyStrip r.work_email) then .validationError
    else if contains_sensitive description then .sensitiveError
    else .ok

/-- `DiagnosisRequest.normalized_full_text` (`models.py` lines 76-86). -/
def DiagnosisRequest.normalized_full_text (r : DiagnosisRequest) : String :=
  lowerStr (String.intercalate " "
    [r.company_name, r.product_name, r.product_description, r.industry.value])

/-! ## `SecretsManager` (`llm.py` lines 18-88)

The registry is embedded as an association list of records plus the
alert queue.  The per-registry lock serialises operations; the embedding
is the sequential semantics of the locked critical sections. -/

/-- One record of `SecretsManager._records` (`llm.py` lines 34-41). -/
structure SecretRecord where
  api_key : String
  quota_limit : ℤ
  expires_at : Option ℚ
  usage : ℤ
  alerted : Bool
deriving DecidableEq, Repr

/-- One alert appended by `record_usage` (`llm.py` lines 68-76). -/
structure QuotaAlert where
  name : String
  message : String
  usage : ℤ
  quota_limit : ℤ
  expires_at : Option ℚ
deriving DecidableEq, Repr

/-- State of a `SecretsManager`. -/
structure SecretsManager where
  records : List (String × SecretRecord)
  alerts : List QuotaAlert
deriving DecidableEq, Repr

/-- Upsert into an association list, keeping the key's position if it is
already present and appending otherwise (Python `dict` assignment on a
dict whose keys occur at most once). -/
def assocSet {κ α : Type} [DecidableEq κ] (l : List (κ × α)) (k : κ) (v : α) :
    List (κ × α) :=
  match l with
  | [] => [(k, v)]
  | p :: ps => if p.1 = k then (k, v) :: ps else p :: assocSet ps k v

/-- `SecretsManager.register_key` (`llm.py` lines 26-41). -/
def SecretsManager.register_key (s : SecretsManager) (name api_key : String)
    (quota_limit : ℤ) (expires_at : Option ℚ) : SecretsManager :=
  let record : SecretRecord :=
    { api_key := api_key, quota_limit := quota_limit,
      expires_at := expires_at, usage := 0, alerted := false }
  { s with records := assocSet s.records name record }

/-- `SecretsManager.record_usage` (`llm.py` lines 57-76).  The alert
threshold `record["usage"] >= quota * 0.8` is embedded exactly over ℚ. -/
def SecretsManager.record_usage (s : SecretsManager) (name : String)
    (used_tokens : ℤ) : SecretsManager :=
  if used_tokens ≤ 0 then s
  else
    match s.records.lookup name with
    | none => s
    | some record =>
      let usage' := record.usage + used_tokens
      let quota := record.quota_limit
      if quota ≠ 0 && !record.alerted && ((quota : ℚ) * (8/10) ≤ (usage' : ℚ)) then
        { records := assocSet s.records name
            { record with usage := usage', alerted := true },
          alerts := s.alerts ++
            [{ name := name, message := "API Key usage exceeded 80% of quota",
               usage := usage', quota_limit := quota,
               expires_at := record.expires_at }] }
      else
        { s with records := assocSet s.records name { record with usage := usage' } }

/-- A sequence of `record_usage` calls against one secret name. -/
def SecretsManager.applyUsages (s : SecretsManager) (name : String) :
    List ℤ → SecretsManager
  | [] => s
  | t :: ts => (s.record_usage name t).applyUsages name ts

/-! ## `TokenBucket` (`llm.py` lines 99-123)

`time.monotonic()` reads are supplied as explicit `now` arguments.  The
constructor takes the integer `capacity` / `refill_rate_per_min`
parameters of the source; token counts are exact rationals. -/

/-- State of a `TokenBucket`. -/
structure TokenBucket where
  capacity : ℚ
  tokens : ℚ
  refill_rate : ℚ
  updated_at : ℚ
deriving DecidableEq, Repr

/-- `TokenBucket.__init__` (`llm.py` lines 102-107) at monotonic time
`t0`. -/
def TokenBucket.mk0 (capacity refill_rate_per_min : ℕ) (t0 : ℚ) : TokenBucket :=
  { capacity := (capacity : ℚ), tokens := (capacity : ℚ),
    refill_rate := (refill_rate_per_min : ℚ) / 60, updated_at := t0 }

/-- `TokenBucket._refill` (`llm.py` lines 116-123) at monotonic time
`now`. -/
def TokenBucket.refill (b : TokenBucket) (now : ℚ) : TokenBucket :=
  let elapsed := now - b.updated_at
  if elapsed ≤ 0 then b
  else
    { b with tokens := min b.capacity (b.tokens + elapsed * b.refill_rate),
             updated_at := now }

/-- `TokenBucket.consume` (`llm.py` lines 109-114) at monotonic time
`now`: `true` on success, `false` for the `RateLimitError` path (which
leaves the refilled token count undecremented). -/
def TokenBucket.consume (b : TokenBucket) (now : ℚ) (tokens : ℕ) :
    Bool × TokenBucket :=
  let b' := b.refill now
  if (tokens : ℚ) > b'.tokens then (false, b')
  else (true, { b' with tokens := b'.tokens - (tokens : ℚ) })

/-- A sequence of `consume` calls, each at its own monotonic time. -/
def TokenBucket.applyConsumes (b : TokenBucket) : List (ℚ × ℕ) → TokenBucket
  | [] => b
  | (now, n) :: ops => ((b.consume now n).2).applyConsumes ops

/-! ## `LLMCall` and the response cache (`llm.py` lines 238-249, 674-685)

A cache key in the source is `f"{platform}:{sha256(prompt)}"`.  For a
fixed request the two prompt texts (discovery / evaluation) are fixed
and distinct, so keys are embedded as `platform × prompt kind` pairs;
the PII redaction applied by `_sanitize_input` before hashing affects
only the transmitted text, never any property claimed here. -/

/-- The two prompt kinds built per iteration (`llm.py` lines 492-495). -/
inductive PromptType where
  | discovery
  | evaluation
deriving DecidableEq, Repr

/-- `LLMCall` (`llm.py` lines 238-249); the `prompt_hash` field is the
prompt fingerprint, subsumed here by the cache-key embedding. -/
structure LLMCall where
  task_id : String
  platform : String
  prompt_type : PromptType
  content : String
  finish_reason : String
  mentions : List String
  sentiment : ℚ
  cached : Bool
  latency_ms : ℚ
deriving DecidableEq, Repr

/-- `LLMOrchestrator._cache`: cache key ↦ (write time, call). -/
abbrev CacheMap : Type := List ((String × PromptType) × (ℚ × LLMCall))

/-- `LLMOrchestrator._write_cache` (`llm.py` lines 674-675); `now` is
the `time.time()` read. -/
def write_cache (m : CacheMap) (k : String × PromptType) (now : ℚ)
    (call : LLMCall) : CacheMap :=
  assocSet m k (now, call)

/-- `LLMOrchestrator._read_cache` (`llm.py` lines 677-685); `now` is
the `time.time()` read.  An expired entry is popped. -/
def read_cache (cache_ttl : ℚ) (m : CacheMap) (k : String × PromptType)
    (now : ℚ) : Option LLMCall × CacheMap :=
  match m.lookup k with
  | none => (none, m)
  | some (ts, call) =>
    if now - ts > cache_ttl then (none, m.filter (fun p => p.1 ≠ k))
    else (some call, m)

/-! ## `LLMTraceStore` (`llm.py` lines 252-344)

The store's clock (`time_fn`) is injected in the source; here every
operation takes the clock value it would read.  Summary payloads are
opaque blobs (the store copies and returns them unchanged). -/

/-- `RawTraceEntry` (`llm.py` lines 252-260). -/
structure RawTraceEntry where
  platform : String
  prompt_type : PromptType
  content : List String
  mentions : List String
  sentiment_score : ℚ
  latency_ms : ℚ
  recorded_at : ℚ
deriving DecidableEq, Repr

/-- `SummaryTraceEntry` (`llm.py` lines 263-266); the payload dict is
embedded as an opaque blob. -/
structure SummaryTraceEntry where
  payload : String
  recorded_at : ℚ
deriving DecidableEq, Repr

/-- State of an `LLMTraceStore` (`llm.py` lines 272-283). -/
structure LLMTraceStore where
  raw_ttl : ℚ
  summary_ttl : ℚ
  raw : List (String × List RawTraceEntry)
  summary : List (String × SummaryTraceEntry)
deriving DecidableEq, Repr

/-- `LLMTraceStore._cleanup` (`llm.py` lines 330-344) at clock value
`now`: prune expired raw entries (dropping tasks left empty) and drop
expired summaries. -/
def LLMTraceStore.cleanup (s : LLMTraceStore) (now : ℚ) : LLMTraceStore :=
  { s with
    raw := (s.raw.map (fun p =>
        (p.1, p.2.filter (fun e => now - e.recorded_at ≤ s.raw_ttl)))).filter
        (fun p => p.2 ≠ []),
    summary := s.summary.filter (fun p => ¬ (now - p.2.recorded_at > s.summary_ttl)) }

/-- Append under a task id, `dict.setdefault(key, []).append(entry)`. -/
def rawAppend (l : List (String × List RawTraceEntry)) (tid : String)
    (e : RawTraceEntry) : List (String × List RawTraceEntry) :=
  match l with
  | [] => [(tid, [e])]
  | p :: ps =>
    if p.1 = tid then (p.1, p.2 ++ [e]) :: ps else p :: rawAppend ps tid e

/-- `LLMTraceStore.record_raw` (`llm.py` lines 285-297) at clock value
`now`. -/
def LLMTraceStore.record_raw (s : LLMTraceStore) (now : ℚ) (call : LLMCall) :
    LLMTraceStore :=
  let entry : RawTraceEntry :=
    { platform := call.platform, prompt_type := call.prompt_type,
      content := [call.content], mentions := call.mentions,
      sentiment_score := call.sentiment, latency_ms := call.latency_ms,
      recorded_at := now }
  ({ s with raw := rawAppend s.raw call.task_id entry }).cleanup now

/-- `LLMTraceStore.record_summary` (`llm.py` lines 299-305) at clock
value `now` (Python dict assignment keeps the position of an existing
key). -/
def LLMTraceStore.record_summary (s : LLMTraceStore) (now : ℚ)
    (tid : String) (payload : String) : LLMTraceStore :=
  let e : SummaryTraceEntry := { payload := payload, recorded_at := now }
  ({ s with summary := assocSet s.summary tid e }).cleanup now

/-- The per-entry view built by `get_trace` (`llm.py` lines 309-320);
`latency_ms` is rounded to 2 decimals there. -/
structure RawTraceView where
  platform : String
  prompt_type : PromptType
  content : List String
  mentions : List String
  sentiment_score : ℚ
  latency_ms : ℚ
  recorded_at : ℚ
deriving DecidableEq, Repr

/-- View of one raw entry as rendered by `get_trace`. -/
def RawTraceEntry.view (e : RawTraceEntry) : RawTraceView :=
  { platform := e.platform, prompt_type := e.prompt_type,
    content := e.content, mentions := e.mentions,
    sentiment_score := e.sentiment_score,
    latency_ms := pyRound2 e.latency_ms, recorded_at := e.recorded_at }

/-- The `{task_id, raw, summary}` payload returned by `get_trace`
(`llm.py` line 328); the summary view is the payload merged with its
`recorded_at`. -/
structure TraceOut where
  task_id : String
  raw : List RawTraceView
  summary : Option (String × ℚ)
deriving DecidableEq, Repr

/-- `LLMTraceStore.get_trace` (`llm.py` lines 307-328) at clock value
`now`; returns the view and the mutated (pruned) store. -/
def LLMTraceStore.get_trace (s : LLMTraceStore) (now : ℚ) (tid : String) :
    TraceOut × LLMTraceStore :=
  let s' := s.cleanup now
  let rawViews := ((s'.raw.lookup tid).getD []).map RawTraceEntry.view
  let summaryView := (s'.summary.lookup tid).map
    (fun e => (e.payload, e.recorded_at))
  (⟨tid, rawViews, summaryView⟩, s')

/-- The operations that can hit a trace store, each paired at
application time with the clock value it reads. -/
inductive TraceOp where
  | recRaw (call : LLMCall)
  | recSum (tid : String) (payload : String)
  | getT (tid : String)
deriving DecidableEq, Repr

/-- Apply one timed operation to the store. -/
def LLMTraceStore.applyOp (s : LLMTraceStore) : ℚ × TraceOp → LLMTraceStore
  | (now, .recRaw call) => s.record_raw now call
  | (now, .recSum tid payload) => s.record_summary now tid payload
  | (now, .getT tid) => (s.get_trace now tid).2

/-- Apply a sequence of timed operations. -/
def LLMTraceStore.applyOps (s : LLMTraceStore) : List (ℚ × TraceOp) → LLMTraceStore
  | [] => s
  | op :: ops => (s.applyOp op).applyOps ops

/-! ## `LLMOrchestrator` configuration and derivation helpers
(`llm.py` lines 368-472, 621-733) -/

/-- `SENSITIVE_BLOCK_MESSAGE` stands behind the raised error; the
canonical cache note of `_simulate_online` (`llm.py` line 518). -/
def cacheNoteText : String := "(来自缓存，已进入实时重试队列)"

/-- The platform keys, in the insertion order of the `self.clients`
dict (`llm.py` lines 406-409). -/
def platformKeys : List String := ["doubao", "deepseek"]

/-- `_PLATFORM_LABELS` (`llm.py` line 375), with the
`.get(platform_key, platform_key)` default of line 490. -/
def platformLabel (platform_key : String) : String :=
  if platform_key = "doubao" then "豆包"
  else if platform_key = "deepseek" then "DeepSeek"
  else platform_key

/-- Orchestrator construction parameters (`LLMOrchestrator.__init__`,
`llm.py` lines 377-409).  `clients` records which providers have a
configured client (a missing credential leaves the entry `None`);
`negative_tags` already carries the `or ["体验顺畅"]` constructor
default, so it is nonempty in any state reachable from `__init__`. -/
structure OrchConfig where
  clients : String → Bool
  cache_ttl : ℚ
  industry_competitors : Industry → List String
  positive_keywords : List (String × ℚ)
  negative_keywords : List (String × ℚ)
  negative_tags : List String

/-- `LLMObservation` (`llm.py` lines 347-356). -/
structure LLMObservation where
  iteration : ℕ
  platform : String
  platform_key : String
  recommended : Bool
  competitor : Option String
  sentiment : ℚ
  tag : String
  cached : Bool
deriving DecidableEq, Repr

/-- `LLMRunResult` (`llm.py` lines 359-365); the coverage dict is
rendered over `platformKeys` in insertion order. -/
structure LLMRunResult where
  task_id : String
  observations : List LLMObservation
  coverage : List (String × Bool)
  cache_note : Option String
  degraded : Bool
deriving DecidableEq, Repr

/-- `LLMOrchestrator._contains_sensitive_output` (`llm.py` lines
731-733). -/
def contains_sensitive_output (content : String) : Bool :=
  SENSITIVE_KEYWORDS.any (fun k => strContains (lowerStr content) (lowerStr k))

/-- `LLMOrchestrator._score_sentiment` (`llm.py` lines 701-710). -/
def score_sentiment (cfg : OrchConfig) (content : String) : ℚ :=
  let normalized := lowerStr content
  let score := (cfg.positive_keywords.foldl (fun acc kw =>
      if strContains normalized (lowerStr kw.1) then acc + kw.2 else acc) 0)
    - (cfg.negative_keywords.foldl (fun acc kw =>
      if strContains normalized (lowerStr kw.1) then acc + kw.2 else acc) 0)
  max (-1) (min 1 score)

/-- `LLMOrchestrator._tag_from_sentiment` (`llm.py` lines 712-717).
`negative_tags[0]` on the middle branch is total in the source because
the constructor default makes the list nonempty; `headD` matches. -/
def tag_from_sentiment (cfg : OrchConfig) (sentiment : ℚ) : String :=
  if sentiment < -(2/10) then cfg.negative_tags.headD "体验波动"
  else if sentiment < 0 then cfg.negative_tags.headD "体验波动"
  else "体验顺畅"

/-- `LLMOrchestrator._is_recommended` (`llm.py` lines 687-689). -/
def is_recommended (r : DiagnosisRequest) (content : String) : Bool :=
  let normalized := lowerStr content
  strContains normalized (lowerStr r.product_name) ||
  strContains normalized (lowerStr r.company_name)

/-- `LLMOrchestrator._inline_competitors` (`llm.py` lines 722-729),
factored through the only two request fields it reads. -/
def inline_competitors_of (cfg : OrchConfig) (description : String)
    (industry : Industry) : List String :=
  let deduped := dedupFirst (extract_mentions description)
  if deduped = [] then dedupFirst (cfg.industry_competitors industry)
  else deduped

/-- `LLMOrchestrator._inline_competitors` applied to a request. -/
def inline_competitors (cfg : OrchConfig) (r : DiagnosisRequest) : List String :=
  inline_competitors_of cfg r.product_description r.industry

/-- `LLMOrchestrator._pick_competitor` (`llm.py` lines 691-699). -/
def pick_competitor (cfg : OrchConfig) (r : DiagnosisRequest)
    (mentions : List String) : Option String :=
  let nc := lowerStr r.company_name
  let np := lowerStr r.product_name
  match mentions.find? (fun m => lowerStr m ≠ nc && lowerStr m ≠ np) with
  | some m => some m
  | none => (inline_competitors cfg r).head?

/-- `LLMOrchestrator._calls_to_observation` (`llm.py` lines 621-653).
`calls` is the per-(iteration, provider) dict keyed by prompt kind. -/
def calls_to_observation (cfg : OrchConfig) (r : DiagnosisRequest)
    (iteration : ℕ) (platform platform_key : String)
    (calls : List (PromptType × LLMCall)) : LLMObservation :=
  let discovery := calls.lookup .discovery
  let evaluation := calls.lookup .evaluation
  let recommended := match discovery with
    | some d => is_recommended r d.content
    | none => false
  let competitor := match discovery with
    | some d => pick_competitor cfg r d.mentions
    | none => none
  let sentiment := match evaluation, discovery with
    | some e, _ => e.sentiment
    | none, some d => d.sentiment
    | none, none => 0
  { iteration := iteration, platform := platform,
    platform_key := platform_key, recommended := recommended,
    competitor := competitor, sentiment := sentiment,
    tag := tag_from_sentiment cfg sentiment,
    cached := calls.any (fun c => c.2.cached) }

/-! ## `LLMOrchestrator._simulate_offline` (`llm.py` lines 424-472) -/

/-- The keyword-derived base recommendation strength (`llm.py` lines
425-433), a function of the lower-cased description. -/
def offlineBaseStrength (cfg : OrchConfig) (description : String) : ℚ :=
  let normalized := lowerStr description
  let s := (45/100 : ℚ)
  let s := cfg.positive_keywords.foldl (fun acc kw =>
    if strContains normalized (lowerStr kw.1) then acc + kw.2 else acc) s
  let s := cfg.negative_keywords.foldl (fun acc kw =>
    if strContains normalized (lowerStr kw.1) then acc - kw.2 / 2 else acc) s
  max (5/100) (min (95/100) s)

/-- The keyword-derived negative ratio (`llm.py` lines 436-440). -/
def offlineNegativeRatio (cfg : OrchConfig) (description : String) : ℚ :=
  let normalized := lowerStr description
  let s := (1/10 : ℚ)
  let s := cfg.negative_keywords.foldl (fun acc kw =>
    if strContains normalized (lowerStr kw.1) then acc + kw.2 else acc) s
  min (9/10) (max 0 s)

/-- The synthetic observations of `_simulate_offline` (`llm.py` lines
443-465), factored through the only request fields the loop reads: the
product description and the industry.  The outer loop runs over the
fixed platform list, the inner one over `range(iterations)`; each
observation is numbered `len(observations) + 1`. -/
def offlineObservations (cfg : OrchConfig) (description : String)
    (industry : Industry) (iterations : ℕ) : List LLMObservation :=
  let recommended_runs := pyRound ((iterations : ℚ) * offlineBaseStrength cfg description)
  let negative_runs := pyRound ((iterations : ℚ) * offlineNegativeRatio cfg description)
  let competitors := inline_competitors_of cfg description industry
  (platformKeys.enum.map (fun pk =>
    (List.range iterations).map (fun (iteration : ℕ) =>
      let recommended := ((iteration : ℤ) < recommended_runs : Bool)
      let compIdx : ℕ := (iteration + pk.1) % competitors.length
      let competitor :=
        if recommended = false ∧ competitors ≠ [] then
          some (competitors.getD compIdx "")
        else none
      let sentiment : ℚ := if (iteration : ℤ) < negative_runs then -(3/10) else 2/10
      let tagIdx : ℕ := iteration % cfg.negative_tags.length
      let tag := cfg.negative_tags.getD tagIdx ""
      { platform := platformLabel pk.2, platform_key := pk.2,
        recommended := recommended, competitor := competitor,
        sentiment := sentiment, tag := tag, cached := false,
        iteration := 0 : LLMObservation }))).flatten.enum.map
    (fun oi => { oi.2 with iteration := oi.1 + 1 })

/-- `LLMOrchestrator._simulate_offline` (`llm.py` lines 424-472); the
random `uuid4` task id is an environment input `τ`. -/
def simulate_offline (cfg : OrchConfig) (r : DiagnosisRequest)
    (iterations : ℕ) (τ : String) : LLMRunResult :=
  { task_id := τ,
    observations := offlineObservations cfg r.product_description r.industry iterations,
    coverage := [("doubao", false), ("deepseek", false)],
    cache_note := none,
    degraded := false }

/-! ## `LLMOrchestrator._simulate_online` (`llm.py` lines 474-552)

Environment model: `resp iter pk pt` is the outcome of
`_invoke_client` for that (iteration, platform, prompt) event — `some
(content, finish_reason, latency_ms)` when the call (within its local
3-attempt backoff) returned a response, `none` when it raised
`LLMClientError`.  The sensitive-output check on a returned content is
part of `_invoke_client` and is embedded below, not oracle-decided.
`etime iter pk pt` is the single `time.time()` read that event performs
(a successful event reads it in `_write_cache`, a failed one in
`_read_cache`).  The trace-store and log appends of `_invoke_client`
are independent of every claim and are not threaded here; the trace
store semantics is verified separately above. -/

/-- Environment of one online run. -/
structure OnlineEnv where
  resp : ℕ → String → PromptType → Option (String × String × ℚ)
  etime : ℕ → String → PromptType → ℚ

/-- Kind of one attempted provider call, as recorded in the run trace:
a returned (non-sensitive) response, an exhausted-backoff failure, or a
response aborted by the sensitive-content check. -/
inductive AttemptKind where
  | ok
  | fail
  | sens
deriving DecidableEq, Repr

/-- One attempted provider call of a run. -/
structure Attempt where
  iteration : ℕ
  platform_key : String
  prompt_type : PromptType
  kind : AttemptKind
deriving DecidableEq, Repr

/-- Mutable state of `_simulate_online`: the `active_clients` key list,
`strike_counts`, `coverage`, `cache_note`, the observations list, the
orchestrator cache, plus the trace of attempted calls. -/
structure OnlineState where
  active : List String
  strikes : String → ℕ
  covf : String → Bool
  cache_note : Option String
  obs : List LLMObservation
  cache : CacheMap
  attempts : List Attempt

/-- Pointwise update of a `String`-indexed map. -/
def fnUpdate {α : Type} (f : String → α) (k : String) (v : α) : String → α :=
  fun q => if q = k then v else f q

/-- Result of processing one prompt of one (iteration, provider) pair:
sensitive abort, or continue with the updated state, the updated
`iteration_calls` dict, and the removed-and-break flag. -/
inductive PromptStepRes where
  | aborted (st : OnlineState)
  | next (st : OnlineState) (ic : List (PromptType × LLMCall)) (removed : Bool)

/-- One `for prompt_type, prompt in prompts:` body iteration
(`llm.py` lines 496-522), including the `_invoke_client` response
handling (lines 565-604). -/
def promptStep (cfg : OrchConfig) (env : OnlineEnv) (τ : String)
    (iter : ℕ) (pk : String) (st : OnlineState)
    (ic : List (PromptType × LLMCall)) (pt : PromptType) : PromptStepRes :=
  let key : String × PromptType := (pk, pt)
  match env.resp iter pk pt with
  | some (content, finish_reason, latency_ms) =>
    if contains_sensitive_output content then
      .aborted { st with attempts := st.attempts ++ [⟨iter, pk, pt, .sens⟩] }
    else
      let call : LLMCall :=
        { task_id := τ, platform := platformLabel pk, prompt_type := pt,
          content := content, finish_reason := finish_reason,
          mentions := extract_mentions content,
          sentiment := score_sentiment cfg content,
          cached := false, latency_ms := latency_ms }
      let st' :=
        { st with
          strikes := fnUpdate st.strikes pk 0,
          covf := fnUpdate st.covf pk true,
          cache := write_cache st.cache key (env.etime iter pk pt) call,
          attempts := st.attempts ++ [⟨iter, pk, pt, .ok⟩] }
      .next st' (ic ++ [(pt, call)]) false
  | none =>
    let strikes' := fnUpdate st.strikes pk (st.strikes pk + 1)
    let rc := read_cache cfg.cache_ttl st.cache key (env.etime iter pk pt)
    let note' := if rc.1.isSome then some cacheNoteText else st.cache_note
    let ic' := match rc.1 with
      | some cached_call => ic ++ [(pt, { cached_call with cached := true })]
      | none => ic
    let removed := 3 ≤ strikes' pk
    let active' := if removed then st.active.erase pk else st.active
    let st' :=
      { st with
        strikes := strikes'
        cache_note := note'
        cache := rc.2
        active := active'
        attempts := st.attempts ++ [⟨iter, pk, pt, .fail⟩] }
    .next st' ic' removed

/-- The `for prompt_type, prompt in prompts:` loop with its `break` on
circuit-breaker trip (`llm.py` lines 496-522). -/
def promptsLoop (cfg : OrchConfig) (env : OnlineEnv) (τ : String)
    (iter : ℕ) (pk : String) :
    List PromptType → OnlineState → List (PromptType × LLMCall) →
    PromptStepRes
  | [], st, ic => .next st ic false
  | pt :: pts, st, ic =>
    match promptStep cfg env τ iter pk st ic pt with
    | .aborted st' => .aborted st'
    | .next st' ic' removed =>
      if removed then .next st' ic' true
      else promptsLoop cfg env τ iter pk pts st' ic'

/-- The `prompts` pair literal of `llm.py` lines 492-495. -/
def promptList : List PromptType := [.discovery, .evaluation]

/-- The per-provider body of the platform loop (`llm.py` lines
486-533): skip providers no longer active, run the two prompts, then
append one observation when `iteration_calls` is nonempty, numbered
`len(observations) + 1`. -/
def platformStep (cfg : OrchConfig) (r : DiagnosisRequest) (env : OnlineEnv)
    (τ : String) (iter : ℕ) (st : OnlineState) (pk : String) :
    Except OnlineState OnlineState :=
  if pk ∈ st.active then
    match promptsLoop cfg env τ iter pk promptList st [] with
    | .aborted st' => .error st'
    | .next st' ic _ =>
      if ic = [] then .ok st'
      else .ok { st' with obs := st'.obs ++
          [calls_to_observation cfg r (st'.obs.length + 1)
            (platformLabel pk) pk ic] }
  else .ok st

/-- The `for platform_key in list(active_clients.keys()):` loop over
the snapshot taken at iteration start. -/
def platformsLoop (cfg : OrchConfig) (r : DiagnosisRequest) (env : OnlineEnv)
    (τ : String) (iter : ℕ) :
    List String → OnlineState → Except OnlineState OnlineState
  | [], st => .ok st
  | pk :: pks, st =>
    match platformStep cfg r env τ iter st pk with
    | .error st' => .error st'
    | .ok st' => platformsLoop cfg r env τ iter pks st'

/-- The `for iteration in range(iterations):` loop with its early
`break` once every provider has tripped (`llm.py` lines 485-535). -/
def iterationsLoop (cfg : OrchConfig) (r : DiagnosisRequest) (env : OnlineEnv)
    (τ : String) :
    ℕ → ℕ → OnlineState → Except OnlineState OnlineState
  | 0, _, st => .ok st
  | remaining + 1, iter, st =>
    match platformsLoop cfg r env τ iter st.active st with
    | .error st' => .error st'
    | .ok st' =>
      if st'.active = [] then .ok st'
      else iterationsLoop cfg r env τ remaining (iter + 1) st'

/-- Initial state of `_simulate_online` (`llm.py` lines 475-484), over
a pre-existing orchestrator cache `cache₀`. -/
def onlineInit (cfg : OrchConfig) (cache₀ : CacheMap) : OnlineState :=
  { active := platformKeys.filter cfg.clients,
    strikes := fun _ => 0,
    covf := fun _ => false,
    cache_note := none,
    obs := [],
    cache := cache₀,
    attempts := [] }

/-- Full bookkeeping of one `_simulate_online` run: final state plus
whether a `SensitiveContentError` escaped. -/
structure OnlineRun where
  st : OnlineState
  sensitive : Bool

/-- Run the online loops from the initial state. -/
def simulate_online_run (cfg : OrchConfig) (r : DiagnosisRequest)
    (iterations : ℕ) (τ : String) (env : OnlineEnv) (cache₀ : CacheMap) :
    OnlineRun :=
  match iterationsLoop cfg r env τ iterations 0 (onlineInit cfg cache₀) with
  | .error st => ⟨st, true⟩
  | .ok st => ⟨st, false⟩

/-- Render the coverage dict (built over `self.clients`, i.e. both
platform keys) in insertion order. -/
def coverageOf (st : OnlineState) : List (String × Bool) :=
  platformKeys.map (fun pk => (pk, st.covf pk))

/-- `LLMOrchestrator._simulate_online` (`llm.py` lines 474-552):
`.error ()` is the propagated `SensitiveContentError`; otherwise the
run result with `degraded` true exactly when no observation was
produced (lines 537-552).  When no client is active it falls back to
the offline path (lines 481-482). -/
def simulate_online (cfg : OrchConfig) (r : DiagnosisRequest)
    (iterations : ℕ) (τ : String) (env : OnlineEnv) (cache₀ : CacheMap) :
    Except Unit LLMRunResult :=
  if platformKeys.filter cfg.clients = [] then
    .ok (simulate_offline cfg r iterations τ)
  else
    let run := simulate_online_run cfg r iterations τ env cache₀
    if run.sensitive then .error ()
    else
      .ok { task_id := τ, observations := run.st.obs,
            coverage := coverageOf run.st,
            cache_note := run.st.cache_note,
            degraded := run.st.obs = [] }

/-- `LLMOrchestrator.simulate` (`llm.py` lines 419-422): offline when
no provider client is configured, else the online path. -/
def simulate (cfg : OrchConfig) (r : DiagnosisRequest) (iterations : ℕ)
    (τ : String) (env : OnlineEnv) (cache₀ : CacheMap) :
    Except Unit LLMRunResult :=
  if platformKeys.all (fun pk => !cfg.clients pk) then
    .ok (simulate_offline cfg r iterations τ)
  else simulate_online cfg r iterations τ env cache₀

/-! ## `GeoSimulationEngine` (`engine.py`)

Note on the record shapes: `models.py` declares `SimulationMetrics`
without `coverage`/`cache_note` fields and `DiagnosticReport` without
`task_id`/`version` fields, while `engine.py` constructs and reads all
four (constructor keywords at lines 179-190 and 134-143, attribute
assignments at lines 235-236 and 393-394), `notifier.py` reads
`report.version`/`report.task_id`, `server.py` serialises all four and
the repository's tests assert on them.  The records are embedded with
the union of fields, as built by `engine.py`'s construction sites; the
narrower `models.py` declarations are stale relative to every consumer.
The marketing-copy builders (`_build_conversion_card`,
`_build_advices`), the pseudo-console logger and the analytics tracker
are out of scope of every claim and are not embedded. -/

/-- `SimulationSnapshot` (`models.py` lines 89-93). -/
structure SimulationSnapshot where
  iteration : ℕ
  sov_progress : ℚ
  negative_rate : ℚ
deriving DecidableEq, Repr

/-- `SimulationMetrics` as constructed by `engine.py` (see the section
comment): the `models.py` field list plus the `coverage` and
`cache_note` the engine installs. -/
structure SimulationMetrics where
  sov_percentage : ℚ
  recommendation_count : ℤ
  negative_rate : ℚ
  negative_tags : List String
  competitors : List (String × ℕ)
  coverage : List (String × Bool) := []
  cache_note : Option String := none
  degraded : Bool := false
  estimation_note : Option String := none
  snapshots : List SimulationSnapshot := []
deriving DecidableEq, Repr

/-- `GeoSimulationEngine._NEGATIVE_KEYWORDS` (`engine.py` lines 26-34). -/
def engineNegativeKeywords : List (String × ℚ) :=
  [("bug", 15/100), ("投诉", 12/100), ("延迟", 1/10), ("slow", 8/100),
   ("昂贵", 7/100), ("复杂", 5/100), ("崩溃", 16/100)]

/-- `GeoSimulationEngine._POSITIVE_KEYWORDS` (`engine.py` lines 35-42). -/
def enginePositiveKeywords : List (String × ℚ) :=
  [("旗舰", 12/100), ("智能", 8/100), ("高端", 7/100), ("领先", 1/10),
   ("trusted", 9/100), ("稳定", 5/100)]

/-- `GeoSimulationEngine._NEGATIVE_TAG_PHRASES` (`engine.py` lines 43-48). -/
def engineNegativeTagPhrases : List String :=
  ["性价比高", "界面复杂", "稳定性波动", "客服响应慢"]

/-- `GeoSimulationEngine._INDUSTRY_COMPETITORS` (`engine.py` lines 49-55). -/
def engineIndustryCompetitors : Industry → List String
  | .saas => ["OptiStack", "DataPulse", "NeuronSuite"]
  | .consumerElectronics => ["NovaWave", "ArcLight", "PulseOne"]
  | .finance => ["FinPulse", "LedgerX", "CrestPay"]
  | .education => ["LearnSphere", "EduNova", "MindBridge"]
  | .other => ["OmniLab", "PrimeSphere", "TerraBeam"]

/-- The orchestrator configuration built by
`GeoSimulationEngine.__init__` (`engine.py` lines 72-77), with the
providers configured as `clients` says. -/
def engineOrchConfig (clients : String → Bool) : OrchConfig :=
  { clients := clients, cache_ttl := 86400,
    industry_competitors := engineIndustryCompetitors,
    positive_keywords := enginePositiveKeywords,
    negative_keywords := engineNegativeKeywords,
    negative_tags := engineNegativeTagPhrases }

/-- Engine parameters: `iterations` (`engine.py` line 67, default 20)
and the orchestrator configuration. -/
structure EngineConfig where
  iterations : ℕ
  ocfg : OrchConfig

/-- `GeoSimulationEngine._generate_industry_estimation` (`engine.py`
lines 155-190).  `coverage or {...}` on a dict is falsy only for an
empty dict. -/
def generate_industry_estimation (e : EngineConfig) (r : DiagnosisRequest)
    (coverage : List (String × Bool)) (cache_note : Option String) :
    SimulationMetrics :=
  let sov : ℕ := r.industry.benchmark_rate
  let recommendation_count := pyRound ((e.iterations : ℚ) * (sov : ℚ) / 100)
  let negative_rate : ℚ := 8
  let snapshots := (List.range (e.iterations / 5)).map (fun i =>
    ({ iteration := (i + 1) * 5, sov_progress := (sov : ℚ),
       negative_rate := negative_rate } : SimulationSnapshot))
  { sov_percentage := (sov : ℚ),
    recommendation_count := recommendation_count,
    negative_rate := negative_rate,
    negative_tags := ["Based on Industry Estimation"],
    competitors := [],
    coverage := if coverage = [] then [("doubao", false), ("deepseek", false)] else coverage,
    cache_note := cache_note,
    degraded := true,
    estimation_note := some "Based on Industry Estimation",
    snapshots := snapshots }

/-- `GeoSimulationEngine._fallback_competitor` (`engine.py` lines
438-451): the inline regex equals the orchestrator mention regex. -/
def fallback_competitor (r : DiagnosisRequest) : Option String :=
  let deduped := dedupFirst (extract_mentions r.product_description)
  let nc := lowerStr r.company_name
  let np := lowerStr r.product_name
  match deduped.find? (fun m => lowerStr m ≠ nc && lowerStr m ≠ np) with
  | some m => some m
  | none => (engineIndustryCompetitors r.industry).head?

/-- Bump a counter in an insertion-ordered association list,
`d[k] = d.get(k, 0) + 1`. -/
def bumpCount (l : List (String × ℕ)) (k : String) : List (String × ℕ) :=
  match l with
  | [] => [(k, 1)]
  | p :: ps => if p.1 = k then (p.1, p.2 + 1) :: ps else p :: bumpCount ps k

/-- Accumulator of the observation fold in
`_build_metrics_from_observations` (`engine.py` lines 249-304). -/
structure MetricsAcc where
  competitor_counts : List (String × ℕ) := []
  negative_tags : List String := []
  snapshots : List SimulationSnapshot := []
  recommendation_totals : List (String × ℕ) := []
  platform_runs : List (String × ℕ) := []
  recommendation_count : ℕ := 0
  negative_count : ℕ := 0

/-- One step of the `for idx, observation in enumerate(observations)`
loop (`engine.py` lines 257-304). -/
def metricsStep (r : DiagnosisRequest) (acc : MetricsAcc)
    (io : ℕ × LLMObservation) : MetricsAcc :=
  let idx := io.1
  let ob := io.2
  let acc :=
    if ob.platform_key ≠ "" then
      { acc with platform_runs := bumpCount acc.platform_runs ob.platform_key }
    else acc
  let acc :=
    if ob.recommended then
      { acc with
        recommendation_count := acc.recommendation_count + 1
        recommendation_totals := bumpCount acc.recommendation_totals ob.platform_key }
    else
      match (match ob.competitor with
             | some c => some c
             | none => fallback_competitor r) with
      | some competitor =>
        { acc with competitor_counts := bumpCount acc.competitor_counts competitor }
      | none => acc
  let acc :=
    if ob.sentiment < 0 then { acc with negative_count := acc.negative_count + 1 }
    else acc
  let tag := if ob.tag ≠ "" then ob.tag else "体验顺畅"
  let acc := { acc with negative_tags := acc.negative_tags ++ [tag] }
  if (idx + 1) % 5 = 0 then
    let sov_progress := pyRound2 (((acc.recommendation_count : ℚ) / ((idx : ℚ) + 1)) * 100)
    let negative_rate := pyRound2 (((acc.negative_count : ℚ) / ((idx : ℚ) + 1)) * 100)
    { acc with snapshots := acc.snapshots ++
        [⟨idx + 1, sov_progress, negative_rate⟩] }
  else acc

/-- `GeoSimulationEngine._build_metrics_from_observations` (`engine.py`
lines 240-326). -/
def build_metrics_from_observations (observations : List LLMObservation)
    (r : DiagnosisRequest) (per_platform_runs : ℕ)
    (coverage : List (String × Bool)) : SimulationMetrics :=
  let acc := observations.enum.foldl (metricsStep r) {}
  let total_runs : ℕ := max 1 observations.length
  let negative_rate := pyRound2 (((acc.negative_count : ℚ) / (total_runs : ℚ)) * 100)
  let covered : ℕ := (coverage.filter (fun p => p.2)).length
  let active_platforms : ℕ :=
    if covered = 0 then max 1 acc.platform_runs.length else covered
  let total_recs : ℕ := (acc.recommendation_totals.map (fun p => p.2)).sum
  let average_recommendations :=
    pyRound ((total_recs : ℚ) / ((max 1 active_platforms : ℕ) : ℚ))
  let sov_percentage :=
    pyRound2 (((average_recommendations : ℚ) / ((max 1 per_platform_runs : ℕ) : ℚ)) * 100)
  { sov_percentage := sov_percentage,
    recommendation_count := average_recommendations,
    negative_rate := negative_rate,
    negative_tags := if acc.negative_tags = [] then ["体验顺畅"] else acc.negative_tags,
    competitors := acc.competitor_counts,
    snapshots := acc.snapshots }

/-- `GeoSimulationEngine._run_simulation` (`engine.py` lines 192-238):
the simulate call, the E-01 forced-degradation test hook (lines
196-200), and the choice between the industry estimation and metrics
built from observations.  `.error ()` propagates
`SensitiveContentError`. -/
def run_simulation (e : EngineConfig) (r : DiagnosisRequest) (τ : String)
    (env : OnlineEnv) (cache₀ : CacheMap) : Except Unit SimulationMetrics :=
  match simulate e.ocfg r e.iterations τ env cache₀ with
  | .error u => .error u
  | .ok llm_result₀ =>
    let forced := strContains (lowerStr r.product_description) "timeout" ||
      strContains r.product_description "熔断"
    let llm_result :=
      if forced then { llm_result₀ with degraded := true, observations := [] }
      else llm_result₀
    if llm_result.degraded || llm_result.observations = [] then
      .ok (generate_industry_estimation e r llm_result.coverage llm_result.cache_note)
    else
      let metrics := build_metrics_from_observations llm_result.observations r
        e.iterations llm_result.coverage
      .ok { metrics with
            coverage := llm_result.coverage
            cache_note := llm_result.cache_note }

/-! ## Versioning and the catch-up retry (`engine.py` lines 344-423,
`notifier.py`) -/

/-- `GeoSimulationEngine._version_store`. -/
abbrev VersionStore : Type := List (String × ℕ)

/-- `GeoSimulationEngine._version_key` (`engine.py` lines 411-413). -/
def version_key (r : DiagnosisRequest) : String :=
  r.normalized_full_text ++ "|" ++ lowerStr r.work_email

/-- `GeoSimulationEngine._next_report_version_for_key` (`engine.py`
lines 419-423): returns the incremented version and the updated store. -/
def next_report_version_for_key (store : VersionStore) (key : String) :
    ℕ × VersionStore :=
  let version := (store.lookup key).getD 0 + 1
  (version, assocSet store key version)

/-- The `ReportUpdateMessage` content relevant to the catch-up layer
(`notifier.py` lines 31-45): recipient, version, task id and the fresh
SOV / negative-rate figures. -/
structure ReportUpdateMessage where
  to_email : String
  report_version : ℕ
  task_id : String
  sov_percentage : ℚ
  negative_rate : ℚ
deriving DecidableEq, Repr

/-- `GeoSimulationEngine._retry_realtime_refresh` (`engine.py` lines
370-409): re-run `simulate`; swallow `SensitiveContentError`; bail out
silently when the fresh result still carries a cache note, is degraded,
or has no observations; otherwise rebuild metrics with the cache note
cleared, take the next version for the identity key, and dispatch the
update notification (`notifier.py` builds it from `request.work_email`,
`report.version`, `report.task_id` and the metrics figures; the
marketing copy it also embeds is out of claim scope). -/
def retry_realtime_refresh (e : EngineConfig) (r : DiagnosisRequest)
    (τ : String) (env : OnlineEnv) (cache₀ : CacheMap)
    (store : VersionStore) : VersionStore × Option ReportUpdateMessage :=
  match simulate e.ocfg r e.iterations τ env cache₀ with
  | .error _ => (store, none)
  | .ok llm_result =>
    if llm_result.cache_note.isSome || llm_result.degraded ||
        llm_result.observations = [] then
      (store, none)
    else
      let metrics₀ := build_metrics_from_observations llm_result.observations r
        e.iterations llm_result.coverage
      let metrics := { metrics₀ with
                       coverage := llm_result.coverage
                       cache_note := none }
      let vv := next_report_version_for_key store (version_key r)
      (vv.2, some
        { to_email := r.work_email, report_version := vv.1,
          task_id := llm_result.task_id,
          sov_percentage := metrics.sov_percentage,
          negative_rate := metrics.negative_rate })

/-! ## Derived notions used by the claims -/

/-- The outcomes of the attempted calls against one provider, in run
order. -/
def pEvents (attempts : List Attempt) (p : String) : List AttemptKind :=
  (attempts.filter (fun a => a.platform_key = p)).map (fun a => a.kind)

/-- The failure streak encoded in a trace: the number of `fail`
outcomes after the last `ok` outcome (a sensitive abort neither resets
nor extends the streak, matching `_simulate_online`, where
`strike_counts` is only written by the success and failure branches). -/
def tfail (l : List AttemptKind) : ℕ :=
  ((l.reverse.takeWhile (fun k => k ≠ .ok)).filter (fun k => k = .fail)).length

/-- Are the `iteration` fields of an observation list exactly
`1, 2, …, n` in list order? -/
def obsNumbered (l : List LLMObservation) : Bool :=
  l.enum.all (fun io => io.2.iteration = io.1 + 1)

/-- `obsNumbered` on the observations of a run outcome (vacuous for a
propagated sensitive abort). -/
def obsNumberedE : Except Unit LLMRunResult → Bool
  | .error _ => true
  | .ok res => obsNumbered res.observations

/-- Sum of the positive entries of a usage sequence: the accumulated
usage after `applyUsages` on a fresh record (non-positive entries are
no-ops). -/
def posSum (ts : List ℤ) : ℤ :=
  (ts.filter (fun t => 0 < t)).sum

/-- Whether a usage sequence drives a fresh record with quota `q`
across the 80% threshold. -/
def crossesQuota (q : ℤ) (ts : List ℤ) : Bool :=
  (q : ℚ) * (8/10) ≤ ((posSum ts : ℤ) : ℚ)

/-- The raw trace entry that `record_raw` builds from a call at clock
value `now` (`llm.py` lines 287-295). -/
def recordedRawEntry (call : LLMCall) (now : ℚ) : RawTraceEntry :=
  { platform := call.platform, prompt_type := call.prompt_type,
    content := [call.content], mentions := call.mentions,
    sentiment_score := call.sentiment, latency_ms := call.latency_ms,
    recorded_at := now }

/-- The trace store holds raw entry `e` under task id `tid`. -/
def RawHas (s : LLMTraceStore) (tid : String) (e : RawTraceEntry) : Prop :=
  ∃ l, s.raw.lookup tid = some l ∧ e ∈ l

/-- The trace store's summary for task id `tid` is exactly `e`. -/
def SumHas (s : LLMTraceStore) (tid : String) (e : SummaryTraceEntry) :
    Prop :=
  s.summary.lookup tid = some e

/-- The operation does not record a new summary for `tid`
(`record_summary` overwrites the previous summary of a task). -/
def opNoSummaryFor (o : TraceOp) (tid : String) : Bool :=
  match o with
  | .recSum tid' _ => tid' ≠ tid
  | _ => true

/-- No operation of the sequence records a new summary for `tid`. -/
def opsNoSummaryFor (ops : List (ℚ × TraceOp)) (tid : String) : Bool :=
  ops.all (fun op => opNoSummaryFor op.2 tid)

/-! ## Concrete fixtures for witnesses and counterexamples -/

/-- A benign valid request: description with no keyword hits, no
inline mentions, no forced-degradation marker. -/
def fixtureReq : DiagnosisRequest :=
  { company_name := "Mingyu Tech", product_name := "Aurora GEO",
    product_description := "这是一段很长的描述语句内容", industry := .saas,
    work_email := "ops@mingyu.com" }

/-- The same description in the finance industry. -/
def fixtureReqFinance : DiagnosisRequest :=
  { fixtureReq with industry := .finance }

/-- The same description and industry under another company name. -/
def fixtureReqOtherCompany : DiagnosisRequest :=
  { fixtureReq with company_name := "Other Co" }

/-- A request whose company name contains the sensitive keyword
`政治` while every other field is benign (the repository's own test
`test_sensitive_company_name_also_blocks_generation` expects it to be
blocked). -/
def fixtureReqSensitiveCompany : DiagnosisRequest :=
  { fixtureReq with company_name := "政治先锋科技有限公司" }

/-- A request whose product description contains sensitive keywords
(the blocked case of `test_sensitive_content_blocks_generation`). -/
def fixtureReqSensitiveDescription : DiagnosisRequest :=
  { fixtureReq with product_description := "涉及政治暴力的描述，请处理" }

/-- Engine with the default orchestrator and no provider credentials
configured, at a small iteration budget. -/
def fixtureEngineNoClients : EngineConfig :=
  { iterations := 2, ocfg := engineOrchConfig (fun _ => false) }

/-- Engine with both providers configured. -/
def fixtureEngineBoth : EngineConfig :=
  { iterations := 1, ocfg := engineOrchConfig (fun _ => true) }

/-- Engine with only the doubao provider configured. -/
def fixtureEngineDoubao : EngineConfig :=
  { iterations := 1, ocfg := engineOrchConfig (fun pk => pk = "doubao") }

/-- Environment in which every provider call exhausts its backoff. -/
def fixtureEnvAllFail : OnlineEnv :=
  { resp := fun _ _ _ => none, etime := fun _ _ _ => 0 }

/-- Environment in which every provider call returns a benign
recommending response. -/
def fixtureEnvAllOk : OnlineEnv :=
  { resp := fun _ _ _ => some ("Aurora GEO 推荐", "stop", 1),
    etime := fun _ _ _ => 0 }

/-- Environment of the flaky-provider scenario: iteration 0 succeeds,
later iterations fail (and hit the cache written in iteration 0). -/
def fixtureEnvFlaky : OnlineEnv :=
  { resp := fun iter _ _ =>
      if iter = 0 then some ("Aurora GEO 推荐", "stop", 1) else none,
    etime := fun _ _ _ => 0 }

/-- A light orchestrator configuration with empty keyword dictionaries
(the wiring of `test_cache_note_when_using_recent_llm_cache`), with
only the doubao client configured. -/
def fixtureOrchLight : OrchConfig :=
  { clients := fun pk => pk = "doubao", cache_ttl := 86400,
    industry_competitors := fun _ => [],
    positive_keywords := [], negative_keywords := [],
    negative_tags := ["体验顺畅"] }

/-- The light configuration with both providers configured. -/
def fixtureOrchLightBoth : OrchConfig :=
  { fixtureOrchLight with clients := fun _ => true }

/-- An engine over the light configuration at one iteration. -/
def fixtureEngineLight : EngineConfig :=
  { iterations := 1, ocfg := fixtureOrchLight }

/-- A concrete cached call used by the C5 witness. -/
def fixtureCacheCall : LLMCall :=
  { task_id := "t", platform := "豆包", prompt_type := PromptType.discovery,
    content := "hi", finish_reason := "stop", mentions := [],
    sentiment := 0, cached := false, latency_ms := 1 }

/-- Invariant of a token bucket: tokens within `[0, capacity]` and
nonnegative parameters (guaranteed by the constructor, preserved by
every operation). -/
def TokenBucket.Inv (b : TokenBucket) : Prop :=
  0 ≤ b.tokens ∧ b.tokens ≤ b.capacity ∧ 0 ≤ b.capacity ∧ 0 ≤ b.refill_rate

/-- The run result produced by one fully-failed online iteration over
both providers (used to witness the degraded-run claims). -/
def fixtureDegradedResult : LLMRunResult :=
  { task_id := "t", observations := [],
    coverage := [("doubao", false), ("deepseek", false)],
    cache_note := none, degraded := true }

/-- An empty trace store with the TTLs of
`test_trace_store_retention_and_schema` (`raw_ttl=10`,
`summary_ttl=20`). -/
def fixtureTraceStore : LLMTraceStore :=
  { raw_ttl := 10, summary_ttl := 20, raw := [], summary := [] }

/-- The call recorded in `test_trace_store_retention_and_schema`. -/
def fixtureTraceCall : LLMCall :=
  { task_id := "task-1", platform := "豆包", prompt_type := .discovery,
    content := "Aurora GEO 推荐", finish_reason := "stop",
    mentions := ["Aurora"], sentiment := 2/5, cached := false,
    latency_ms := 241/2 }

/-- Decidable equality for run outcomes. -/
instance {ε α : Type} [DecidableEq ε] [DecidableEq α] :
    DecidableEq (Except ε α) := fun a b =>
  match a, b with
  | .error e, .error e' =>
    if h : e = e' then isTrue (by rw [h])
    else isFalse (fun hc => by cases hc; exact h rfl)
  | .ok x, .ok y =>
    if h : x = y then isTrue (by rw [h])
    else isFalse (fun hc => by cases hc; exact h rfl)
  | .error _, .ok _ => isFalse (fun hc => by cases hc)
  | .ok _, .error _ => isFalse (fun hc => by cases hc)

/-! ## Invariant notions stated over the embedded definitions -/

/-- Properties the claim requires of an emitted alert. -/
def alertOk (name : String) (quota : ℤ) (expiry : Option ℚ) (a : QuotaAlert) :
    Prop :=
  a.name = name ∧ a.quota_limit = quota ∧ a.expires_at = expiry ∧
    (quota : ℚ) * (8/10) ≤ (a.usage : ℚ)

/-- Invariant carried through a usage sequence against a freshly
registered record. -/
def UsageGood (s₀ : SecretsManager) (name key : String) (quota : ℤ)
    (expiry : Option ℚ) (s : SecretsManager) (us : List ℤ) : Prop :=
  s.records.lookup name = some
    { api_key := key, quota_limit := quota, expires_at := expiry,
      usage := posSum us, alerted := crossesQuota quota us } ∧
  ∃ A, s.alerts = s₀.alerts ++ A ∧
    A.length = (if crossesQuota quota us then 1 else 0) ∧
    ∀ a ∈ A, alertOk name quota expiry a

/-- The `active_clients` key list is always exactly the configured
platforms whose failure streak has not reached 3. -/
def activeChar (cfg : OrchConfig) (attempts : List Attempt) : List String :=
  platformKeys.filter
    (fun q => cfg.clients q && decide (tfail (pEvents attempts q) < 3))

/-- Every attempt in the trace was made while the provider's streak was
still below 3: each proper prefix of a provider's event list that is
followed by another event has `tfail < 3`. -/
def PrefixOk (attempts : List Attempt) : Prop :=
  ∀ p i, i < (pEvents attempts p).length →
    tfail ((pEvents attempts p).take i) < 3

/-- Master invariant of the `_simulate_online` state. -/
def StGood (cfg : OrchConfig) (st : OnlineState) : Prop :=
  obsNumbered st.obs = true ∧
  (st.cache_note = none ∨ st.cache_note = some cacheNoteText) ∧
  (∀ ob ∈ st.obs, ob.cached = true → st.cache_note = some cacheNoteText) ∧
  (∀ q, st.strikes q = tfail (pEvents st.attempts q)) ∧
  st.active = activeChar cfg st.attempts ∧
  (∀ q, tfail (pEvents st.attempts q) ≤ 3) ∧
  PrefixOk st.attempts

/-- The per-(iteration, provider) call dict never holds a cached call
unless the run's cache note is set. -/
def ICGood (st : OnlineState) (ic : List (PromptType × LLMCall)) : Prop :=
  ∀ c ∈ ic, c.2.cached = true → st.cache_note = some cacheNoteText

/-! # Theorems

General-purpose lemmas first, then one theorem per claim (with its
witness or counterexample where applicable). -/

theorem lookup_assocSet {κ α : Type} [DecidableEq κ]
    (l : List (κ × α)) (k : κ) (v : α) :
    (assocSet l k v).lookup k = some v := by
  induction l with
  | nil => simp [assocSet, List.lookup]
  | cons p ps ih =>
    by_cases h : p.1 = k
    · simp [assocSet, h, List.lookup]
    · have hb : (k == p.1) = false := beq_eq_false_iff_ne.mpr (fun x => h x.symm)
      simp [assocSet, h, List.lookup, hb, ih]

theorem lookup_assocSet_ne {κ α : Type} [DecidableEq κ]
    (l : List (κ × α)) (k k' : κ) (v : α) (hne : k' ≠ k) :
    (assocSet l k v).lookup k' = l.lookup k' := by
  induction l with
  | nil => simp [assocSet, List.lookup, beq_eq_false_iff_ne.mpr hne]
  | cons p ps ih =>
    by_cases h : p.1 = k
    · subst h
      simp [assocSet, List.lookup, beq_eq_false_iff_ne.mpr hne]
    · by_cases h' : k' = p.1
      · subst h'
        simp [assocSet, h, List.lookup]
      · have hb : (k' == p.1) = false := beq_eq_false_iff_ne.mpr h'
        simp [assocSet, h, List.lookup, hb, ih]

theorem posSum_append_one (ts : List ℤ) (t : ℤ) :
    posSum (ts ++ [t]) = posSum ts + (if 0 < t then t else 0) := by
  by_cases h : 0 < t <;> simp [posSum, List.filter_append, h]

theorem posSum_nonneg (ts : List ℤ) : 0 ≤ posSum ts := by
  induction ts with
  | nil => simp [posSum]
  | cons t ts ih =>
    by_cases h : 0 < t
    · simpa [posSum, h] using add_nonneg (le_of_lt h)
        (by simpa [posSum] using ih)
    · simpa [posSum, h] using ih

theorem except_eq_ok_getD {ε α : Type} (e : Except ε α) (d : α)
    (h : e.toOption.isSome = true) : e = Except.ok (e.toOption.getD d) := by
  cases e with
  | error x => simp [Except.toOption] at h
  | ok x => rfl

/-! ## C3 — sensitive content handling (code bug) -/

/-- C3: the claim says a sensitive keyword in the company name aborts
the call chain with `SensitiveContentError`.  The code scans only the
product description: `DiagnosisRequest.validate` (`models.py` lines
53-66) passes a request whose company name contains the sensitive
keyword `政治` (second conjunct), the same keyword that makes a
description fail (third conjunct), and neither `simulate` nor any other
`geo_analyzer` code scans the company name.  The repository's own test
`test_sensitive_company_name_also_blocks_generation` expects
`SensitiveContentError` on this input, so the code contradicts its own
test suite. -/
theorem c3_sensitive_company_name_not_blocked :
    fixtureReqSensitiveCompany.validate = ValidateOutcome.ok ∧
    contains_sensitive fixtureReqSensitiveCompany.company_name = true ∧
    fixtureReqSensitiveDescription.validate = ValidateOutcome.sensitiveError := by
  refine ⟨by decide, by decide, by decide⟩

/-! ## C1 — degradation to the industry estimation (corrected) -/

/-- C1 counterexample: the claim asserts that a run with **no provider
client configured** degrades to the industry-estimation path
(`degraded=true` with the estimation note).  With no clients,
`LLMOrchestrator.simulate` (`llm.py` lines 419-422) takes the offline
synthetic path instead and `GeoSimulationEngine._run_simulation`
(`engine.py` lines 192-238) builds ordinary metrics from its
observations: at this concrete input the resulting metrics have
`degraded = false` and no estimation note. -/
theorem c1_counterexample_no_clients_is_offline :
    (platformKeys.all (fun pk => !fixtureEngineNoClients.ocfg.clients pk)) = true ∧
    (run_simulation fixtureEngineNoClients fixtureReq "task" fixtureEnvAllFail
        []).toOption.map (fun m => (m.degraded, m.estimation_note)) =
      some (false, none) := by
  refine ⟨by decide, by decide⟩

/-- C1 (amended): whenever the orchestrator run produces **zero
observations**, `_run_simulation` returns the deterministic industry
estimation instead of propagating an error: `degraded = true`, the
canonical note `"Based on Industry Estimation"`, and
`recommendationCount = round(iterations × benchmark_rate / 100)`. -/
theorem c1_zero_observations_degrades_to_estimation
    (e : EngineConfig) (r : DiagnosisRequest) (τ : String) (env : OnlineEnv)
    (c₀ : CacheMap) (res : LLMRunResult)
    (hsim : simulate e.ocfg r e.iterations τ env c₀ = Except.ok res)
    (hobs : res.observations = []) :
    run_simulation e r τ env c₀ =
      Except.ok (generate_industry_estimation e r res.coverage res.cache_note) ∧
    (generate_industry_estimation e r res.coverage res.cache_note).degraded = true ∧
    (generate_industry_estimation e r res.coverage res.cache_note).estimation_note =
      some "Based on Industry Estimation" ∧
    (generate_industry_estimation e r res.coverage res.cache_note).recommendation_count =
      pyRound ((e.iterations : ℚ) * (r.industry.benchmark_rate : ℚ) / 100) := by
  refine ⟨?_, rfl, rfl, rfl⟩
  unfold run_simulation
  rw [hsim]
  by_cases hf : (strContains (lowerStr r.product_description) "timeout" ||
      strContains r.product_description "熔断") = true
  · simp [hf, hobs]
  · simp only [Bool.not_eq_true] at hf
    simp [hf, hobs]

/-- Witness for C1 (amended): a run over both providers in which every
call fails produces zero observations, and the engine serves the
industry estimation for it. -/
theorem c1_zero_observations_witness :
    simulate fixtureEngineBoth.ocfg fixtureReq fixtureEngineBoth.iterations "t"
        fixtureEnvAllFail [] = Except.ok fixtureDegradedResult ∧
    fixtureDegradedResult.observations = [] ∧
    run_simulation fixtureEngineBoth fixtureReq "t" fixtureEnvAllFail [] =
      Except.ok (generate_industry_estimation fixtureEngineBoth fixtureReq
        fixtureDegradedResult.coverage fixtureDegradedResult.cache_note) := by
  refine ⟨by decide, by decide, ?_⟩
  exact (c1_zero_observations_degrades_to_estimation fixtureEngineBoth fixtureReq
    "t" fixtureEnvAllFail [] fixtureDegradedResult (by decide) (by decide)).1

/-! ## C9 — offline synthetic path (corrected) -/

/-- With no client configured for any platform, `simulate` takes the
offline synthetic path (`llm.py` lines 419-422). -/
theorem simulate_no_clients (cfg : OrchConfig) (r : DiagnosisRequest)
    (n : ℕ) (τ : String) (env : OnlineEnv) (c₀ : CacheMap)
    (hnc : platformKeys.all (fun pk => !cfg.clients pk) = true) :
    simulate cfg r n τ env c₀ = Except.ok (simulate_offline cfg r n τ) := by
  unfold simulate
  rw [hnc]
  rfl

set_option maxHeartbeats 2000000 in
/-- C9 counterexample: with the engine's orchestrator configuration
and no clients, two requests sharing the **same product description**
but different industries get different synthetic observations (the
industry default competitor list enters when the description has no
inline mentions), so the observation contents are not deterministic
given the product description alone. -/
theorem c9_counterexample_industry_changes_observations :
    fixtureReq.product_description = fixtureReqFinance.product_description ∧
    (platformKeys.all (fun pk => !fixtureEngineNoClients.ocfg.clients pk)) = true ∧
    (simulate fixtureEngineNoClients.ocfg fixtureReq 2 "t" fixtureEnvAllFail
        []).toOption.map (fun res => res.observations) ≠
      (simulate fixtureEngineNoClients.ocfg fixtureReqFinance 2 "t" fixtureEnvAllFail
        []).toOption.map (fun res => res.observations) := by
  refine ⟨by decide, by decide, ?_⟩
  rw [simulate_no_clients fixtureEngineNoClients.ocfg fixtureReq 2 "t"
      fixtureEnvAllFail [] (by decide),
    simulate_no_clients fixtureEngineNoClients.ocfg fixtureReqFinance 2 "t"
      fixtureEnvAllFail [] (by decide)]
  intro heq
  exact absurd
    (congrArg (fun o => (o.getD []).map (fun ob => ob.competitor)) heq)
    (by with_unfolding_all decide)

/-- C9 (amended): with no provider client configured, `simulate` takes
the offline synthetic path and returns exactly `iterations × 2`
observations in a non-degraded result with all-false coverage and no
cache note; the observation contents are deterministic given the same
product description **and industry** (the only request fields the
offline generator reads). -/
theorem c9_offline_deterministic_given_description_and_industry
    (cfg : OrchConfig) (r₁ r₂ : DiagnosisRequest) (n : ℕ) (τ₁ τ₂ : String)
    (env : OnlineEnv) (c₀ : CacheMap)
    (hnc : platformKeys.all (fun pk => !cfg.clients pk) = true)
    (hdesc : r₁.product_description = r₂.product_description)
    (hind : r₁.industry = r₂.industry) :
    simulate cfg r₁ n τ₁ env c₀ = Except.ok (simulate_offline cfg r₁ n τ₁) ∧
    (simulate_offline cfg r₁ n τ₁).observations.length = 2 * n ∧
    (simulate_offline cfg r₁ n τ₁).degraded = false ∧
    (simulate_offline cfg r₁ n τ₁).coverage =
      [("doubao", false), ("deepseek", false)] ∧
    (simulate_offline cfg r₁ n τ₁).cache_note = none ∧
    (simulate_offline cfg r₁ n τ₁).observations =
      (simulate_offline cfg r₂ n τ₂).observations := by
  refine ⟨?_, ?_, rfl, rfl, rfl, ?_⟩
  · unfold simulate
    rw [hnc]
    rfl
  · simp [simulate_offline, offlineObservations, platformKeys, List.enum,
      List.enumFrom]
    omega
  · simp only [simulate_offline]
    rw [hdesc, hind]

/-- Witness for C9 (amended): two requests differing only in the
company name (same description, same industry) produce identical
synthetic observation lists. -/
theorem c9_offline_deterministic_witness :
    (platformKeys.all (fun pk => !fixtureEngineNoClients.ocfg.clients pk)) = true ∧
    fixtureReq.product_description = fixtureReqOtherCompany.product_description ∧
    fixtureReq.industry = fixtureReqOtherCompany.industry ∧
    (simulate_offline fixtureEngineNoClients.ocfg fixtureReq 2 "t1").observations =
      (simulate_offline fixtureEngineNoClients.ocfg fixtureReqOtherCompany 2
        "t2").observations := by
  refine ⟨by decide, by decide, by decide, ?_⟩
  exact (c9_offline_deterministic_given_description_and_industry
    fixtureEngineNoClients.ocfg fixtureReq fixtureReqOtherCompany 2 "t1" "t2"
    fixtureEnvAllFail [] (by decide) (by decide) (by decide)).2.2.2.2.2

/-! ## C6 — rate limiter token bounds -/

theorem TokenBucket.refill_Inv (b : TokenBucket) (now : ℚ) (h : b.Inv) :
    (b.refill now).Inv := by
  obtain ⟨h0, hc, hcap, hrate⟩ := h
  unfold TokenBucket.refill TokenBucket.Inv
  dsimp only
  split
  · exact ⟨h0, hc, hcap, hrate⟩
  · rename_i he
    refine ⟨?_, ?_, hcap, hrate⟩
    · exact le_min hcap (add_nonneg h0 (mul_nonneg (le_of_lt (lt_of_not_le he)) hrate))
    · exact min_le_left _ _

theorem TokenBucket.consume_Inv (b : TokenBucket) (now : ℚ) (n : ℕ)
    (h : b.Inv) : ((b.consume now n).2).Inv := by
  have hb' := b.refill_Inv now h
  obtain ⟨h0, hc, hcap, hrate⟩ := hb'
  unfold TokenBucket.consume
  dsimp only
  split
  · exact ⟨h0, hc, hcap, hrate⟩
  · rename_i hle
    have hn : ((n : ℚ)) ≤ (b.refill now).tokens := le_of_not_lt hle
    refine ⟨?_, ?_, hcap, hrate⟩
    · show (0 : ℚ) ≤ (b.refill now).tokens - (n : ℚ)
      linarith
    · show (b.refill now).tokens - (n : ℚ) ≤ (b.refill now).capacity
      have hn0 : (0 : ℚ) ≤ (n : ℚ) := Nat.cast_nonneg n
      linarith

theorem TokenBucket.mk0_Inv (capacity refill_rate_per_min : ℕ) (t0 : ℚ) :
    (TokenBucket.mk0 capacity refill_rate_per_min t0).Inv := by
  unfold TokenBucket.mk0 TokenBucket.Inv
  refine ⟨Nat.cast_nonneg _, le_refl _, Nat.cast_nonneg _, ?_⟩
  positivity

theorem TokenBucket.applyConsumes_Inv (b : TokenBucket)
    (ops : List (ℚ × ℕ)) (h : b.Inv) : (b.applyConsumes ops).Inv := by
  induction ops generalizing b with
  | nil => exact h
  | cons op ops ih =>
    exact ih _ (b.consume_Inv op.1 op.2 h)

/-- C6: (i) for a bucket constructed with `TokenBucket.__init__` and
any sequence of timed `consume` calls, the token count stays within
`[0, capacity]`; (ii) a failed `consume` leaves the (lazily refilled)
count undecremented while a successful one decrements it by `n`; (iii)
from an empty bucket, waiting at least `capacity / refillRate` seconds
makes `consume(capacity)` succeed. -/
theorem c6_token_bucket_bounds (capacity refill_rate_per_min : ℕ)
    (t0 now : ℚ) (ops : List (ℚ × ℕ)) (b : TokenBucket) (n : ℕ)
    (hr : 1 ≤ refill_rate_per_min)
    (hwait : t0 + (capacity : ℚ) / ((refill_rate_per_min : ℚ) / 60) ≤ now) :
    (0 ≤ ((TokenBucket.mk0 capacity refill_rate_per_min t0).applyConsumes
        ops).tokens ∧
      ((TokenBucket.mk0 capacity refill_rate_per_min t0).applyConsumes
        ops).tokens ≤ (capacity : ℚ)) ∧
    ((b.consume now n).1 = false →
      (b.consume now n).2.tokens = (b.refill now).tokens) ∧
    ((b.consume now n).1 = true →
      (b.consume now n).2.tokens = (b.refill now).tokens - (n : ℚ)) ∧
    ((({ capacity := (capacity : ℚ), tokens := 0,
         refill_rate := (refill_rate_per_min : ℚ) / 60,
         updated_at := t0 } : TokenBucket).consume now capacity).1 = true) := by
  refine ⟨?_, ?_, ?_, ?_⟩
  · have h := TokenBucket.applyConsumes_Inv _ ops
      (TokenBucket.mk0_Inv capacity refill_rate_per_min t0)
    have hcap : ((TokenBucket.mk0 capacity refill_rate_per_min t0).applyConsumes
        ops).capacity = (capacity : ℚ) := by
      have : ∀ (bb : TokenBucket) (os : List (ℚ × ℕ)),
          (bb.applyConsumes os).capacity = bb.capacity := by
        intro bb os
        induction os generalizing bb with
        | nil => rfl
        | cons op os ih =>
          rw [TokenBucket.applyConsumes, ih]
          unfold TokenBucket.consume TokenBucket.refill
          dsimp only
          split <;> split <;> rfl
      rw [this]
      rfl
    exact ⟨h.1, hcap ▸ h.2.1⟩
  · intro hfail
    unfold TokenBucket.consume at hfail ⊢
    dsimp only at hfail ⊢
    by_cases hcnd : ((n : ℚ)) > (b.refill now).tokens
    · rw [if_pos hcnd]
    · rw [if_neg hcnd] at hfail
      simp at hfail
  · intro hok
    unfold TokenBucket.consume at hok ⊢
    dsimp only at hok ⊢
    by_cases hcnd : ((n : ℚ)) > (b.refill now).tokens
    · rw [if_pos hcnd] at hok
      simp at hok
    · rw [if_neg hcnd]
  · have hrpos : (0 : ℚ) < (refill_rate_per_min : ℚ) / 60 := by
      have : (1 : ℚ) ≤ (refill_rate_per_min : ℚ) := by exact_mod_cast hr
      positivity
    unfold TokenBucket.consume TokenBucket.refill
    dsimp only
    by_cases he : now - t0 ≤ 0
    · have hdle : (capacity : ℚ) / ((refill_rate_per_min : ℚ) / 60) ≤ 0 := by
        linarith
      have hdge : (0 : ℚ) ≤ (capacity : ℚ) / ((refill_rate_per_min : ℚ) / 60) :=
        div_nonneg (Nat.cast_nonneg _) (le_of_lt hrpos)
      have hdz : (capacity : ℚ) / ((refill_rate_per_min : ℚ) / 60) = 0 :=
        le_antisymm hdle hdge
      have hcap0 : (capacity : ℚ) = 0 := by
        rcases div_eq_zero_iff.mp hdz with h | h
        · exact h
        · exact absurd h (ne_of_gt hrpos)
      simp [he, hcap0]
    · have hepos : 0 < now - t0 := lt_of_not_le he
      have hek : (capacity : ℚ) / ((refill_rate_per_min : ℚ) / 60) ≤ now - t0 := by
        linarith
      have hmul : (capacity : ℚ) ≤ (now - t0) * ((refill_rate_per_min : ℚ) / 60) := by
        have := mul_le_mul_of_nonneg_right hek (le_of_lt hrpos)
        rwa [div_mul_cancel₀ _ (ne_of_gt hrpos)] at this
      have hmin : min (capacity : ℚ) (0 + (now - t0) * ((refill_rate_per_min : ℚ) / 60)) =
          (capacity : ℚ) := by
        rw [min_eq_left]
        linarith
      simp only [he, if_false]
      rw [if_neg]
      rw [hmin]
      exact lt_irrefl _

/-- Witness for C6 at a concrete bucket (capacity 2, 60 rpm): the
bounds hold after a concrete consume sequence, and after waiting
`capacity / refillRate = 2` seconds from empty, consuming 2 succeeds. -/
theorem c6_token_bucket_bounds_witness :
    (0 ≤ ((TokenBucket.mk0 2 60 0).applyConsumes [(1, 1), (2, 2)]).tokens ∧
      ((TokenBucket.mk0 2 60 0).applyConsumes [(1, 1), (2, 2)]).tokens ≤
        ((2 : ℕ) : ℚ)) ∧
    ((({ capacity := ((2 : ℕ) : ℚ), tokens := 0,
         refill_rate := ((60 : ℕ) : ℚ) / 60,
         updated_at := (0 : ℚ) } : TokenBucket).consume 2 2).1 = true) := by
  have h := c6_token_bucket_bounds 2 60 0 2 [(1, 1), (2, 2)]
    (TokenBucket.mk0 2 60 0) 2 (by norm_num) (by norm_num)
  exact ⟨h.1, h.2.2.2⟩

/-! ## C7 — quota usage alerts -/

theorem crossesQuota_nil (quota : ℤ) (hq : 1 ≤ quota) :
    crossesQuota quota [] = false := by
  simp only [crossesQuota, posSum, List.filter_nil, List.sum_nil]
  have hpos : (0 : ℚ) < (quota : ℚ) * (8/10) := by
    have : (1 : ℚ) ≤ (quota : ℚ) := by exact_mod_cast hq
    nlinarith
  simp only [Int.cast_zero, decide_eq_false_iff_not, not_le]
  exact_mod_cast hpos

theorem crossesQuota_append (quota : ℤ) (us : List ℤ) (t : ℤ) (ht : 0 < t) :
    crossesQuota quota (us ++ [t]) =
      ((quota : ℚ) * (8/10) ≤ ((posSum us + t : ℤ) : ℚ)) := by
  simp [crossesQuota, posSum_append_one, ht]

theorem crossesQuota_mono (quota : ℤ) (us : List ℤ) (t : ℤ) (ht : 0 < t)
    (h : crossesQuota quota us = true) :
    crossesQuota quota (us ++ [t]) = true := by
  rw [crossesQuota_append quota us t ht]
  simp only [crossesQuota, decide_eq_true_eq] at h
  have : ((posSum us : ℤ) : ℚ) ≤ ((posSum us + t : ℤ) : ℚ) := by
    push_cast
    have : (0 : ℚ) < (t : ℚ) := by exact_mod_cast ht
    linarith
  exact le_trans h this


theorem record_usage_step (s₀ : SecretsManager) (name key : String)
    (quota : ℤ) (expiry : Option ℚ) (s : SecretsManager) (us : List ℤ)
    (t : ℤ) (hq : 1 ≤ quota)
    (h : UsageGood s₀ name key quota expiry s us) :
    UsageGood s₀ name key quota expiry (s.record_usage name t) (us ++ [t]) := by
  obtain ⟨hlook, A, halerts, hlen, hprops⟩ := h
  by_cases ht : t ≤ 0
  · have hs : s.record_usage name t = s := by
      unfold SecretsManager.record_usage
      rw [if_pos ht]
    have hpos : posSum (us ++ [t]) = posSum us := by
      rw [posSum_append_one]
      simp [not_lt.mpr ht]
    have hcross : crossesQuota quota (us ++ [t]) = crossesQuota quota us := by
      simp [crossesQuota, hpos]
    rw [hs]
    exact ⟨by rw [hpos, hcross]; exact hlook, A, halerts,
      by rw [hcross]; exact hlen, hprops⟩
  · have htpos : 0 < t := lt_of_not_le ht
    have hpos : posSum (us ++ [t]) = posSum us + t := by
      rw [posSum_append_one]
      rw [if_pos htpos]
    have hqne : quota ≠ 0 := by omega
    by_cases hcrossed : crossesQuota quota us = true
    · have hcross' : crossesQuota quota (us ++ [t]) = true :=
        crossesQuota_mono quota us t htpos hcrossed
      have hs : s.record_usage name t = { s with records := assocSet s.records name ⟨key, quota, expiry, posSum us + t, crossesQuota quota us⟩ } := by
        unfold SecretsManager.record_usage
        rw [if_neg ht, hlook]
        dsimp only
        rw [if_neg (by simp [hcrossed])]
      rw [hs]
      refine ⟨?_, A, halerts, ?_, hprops⟩
      · dsimp only
        rw [lookup_assocSet, hpos, hcross', hcrossed]
      · rw [if_pos hcross']
        rw [if_pos hcrossed] at hlen
        exact hlen
    · have hcrossb : crossesQuota quota us = false :=
        Bool.eq_false_iff.mpr (fun x => hcrossed x)
      have hA : A = [] := by
        rw [hcrossb] at hlen
        simpa using hlen
      by_cases hth : (quota : ℚ) * (8/10) ≤ ((posSum us + t : ℤ) : ℚ)
      · have hcross' : crossesQuota quota (us ++ [t]) = true := by
          simp only [crossesQuota, hpos]
          exact decide_eq_true hth
        have hs : s.record_usage name t = { records := assocSet s.records name ⟨key, quota, expiry, posSum us + t, true⟩, alerts := s.alerts ++ [⟨name, "API Key usage exceeded 80% of quota", posSum us + t, quota, expiry⟩] } := by
          unfold SecretsManager.record_usage
          rw [if_neg ht, hlook]
          dsimp only
          rw [if_pos (by push_cast at hth; simp [hcrossb, hqne, hth])]
        rw [hs]
        refine ⟨?_, A ++ [⟨name, "API Key usage exceeded 80% of quota",
          posSum us + t, quota, expiry⟩], ?_, ?_, ?_⟩
        · dsimp only
          rw [lookup_assocSet, hpos, hcross']
        · dsimp only
          rw [halerts, List.append_assoc, hA]
        · rw [if_pos hcross']
          simp [hA]
        · intro a ha
          rw [hA] at ha
          simp only [List.nil_append, List.mem_singleton] at ha
          subst ha
          exact ⟨rfl, rfl, rfl, hth⟩
      · have hcross' : crossesQuota quota (us ++ [t]) = false := by
          simp only [crossesQuota, hpos]
          exact decide_eq_false hth
        have hs : s.record_usage name t = { s with records := assocSet s.records name ⟨key, quota, expiry, posSum us + t, crossesQuota quota us⟩ } := by
          unfold SecretsManager.record_usage
          rw [if_neg ht, hlook]
          dsimp only
          rw [if_neg (by push_cast at hth; simp [hcrossb, hth])]
        rw [hs]
        refine ⟨?_, A, halerts, ?_, hprops⟩
        · dsimp only
          rw [lookup_assocSet, hpos, hcross', hcrossb]
        · rw [if_neg (by simp [hcross'])]
          rw [if_neg (by simp [hcrossb])] at hlen
          exact hlen

theorem applyUsages_good (s₀ : SecretsManager) (name key : String)
    (quota : ℤ) (expiry : Option ℚ) (ts : List ℤ) (hq : 1 ≤ quota) :
    UsageGood s₀ name key quota expiry
      ((s₀.register_key name key quota expiry).applyUsages name ts) ts := by
  have base : UsageGood s₀ name key quota expiry
      (s₀.register_key name key quota expiry) [] := by
    refine ⟨?_, [], by simp [SecretsManager.register_key], by simp [crossesQuota_nil quota hq], by simp⟩
    unfold SecretsManager.register_key
    simp only [List.lookup]
    rw [lookup_assocSet]
    simp [posSum, crossesQuota_nil quota hq]
  have step : ∀ (us : List ℤ) (rest : List ℤ) (s : SecretsManager),
      UsageGood s₀ name key quota expiry s us →
      UsageGood s₀ name key quota expiry (s.applyUsages name rest) (us ++ rest) := by
    intro us rest
    induction rest generalizing us with
    | nil =>
      intro s h
      simpa using h
    | cons t rest ih =>
      intro s h
      have h' := record_usage_step s₀ name key quota expiry s us t hq h
      have := ih (us ++ [t]) (s.record_usage name t) h'
      simpa [SecretsManager.applyUsages] using this
  simpa using step [] ts _ base

/-- C7: `record_usage` is a no-op for non-positive token counts;
against a freshly registered secret with positive quota, a sequence of
usage recordings accumulates exactly the positive token counts, appends
exactly one alert when (and only when) the accumulated usage reaches
80% of the quota, and every appended alert carries the secret's name,
quota limit, expiry, and an at-threshold usage figure.  Re-registering
(`register_key`) resets `usage` and the one-shot `alerted` flag. -/
theorem c7_quota_alert_once (s : SecretsManager) (nm : String) (t : ℤ)
    (s₀ : SecretsManager) (name key : String) (quota : ℤ)
    (expiry : Option ℚ) (ts : List ℤ)
    (ht : t ≤ 0) (hq : 1 ≤ quota) :
    s.record_usage nm t = s ∧
    (let s₂ := (s₀.register_key name key quota expiry).applyUsages name ts
     s₂.records.lookup name = some
       { api_key := key, quota_limit := quota, expires_at := expiry,
         usage := posSum ts, alerted := crossesQuota quota ts } ∧
     s₂.alerts.length = s₀.alerts.length +
       (if crossesQuota quota ts then 1 else 0) ∧
     ∀ a ∈ s₂.alerts.drop s₀.alerts.length, alertOk name quota expiry a) := by
  constructor
  · unfold SecretsManager.record_usage
    simp [ht]
  · obtain ⟨hlook, A, halerts, hlen, hprops⟩ :=
      applyUsages_good s₀ name key quota expiry ts hq
    refine ⟨hlook, ?_, ?_⟩
    · rw [halerts, List.length_append, hlen]
    · intro a ha
      rw [halerts, List.drop_append_of_le_length (le_refl _)] at ha
      simp only [List.drop_length, List.nil_append] at ha
      exact hprops a ha

/-- Witness for C7 at the spec's concrete scenario: quota 100, usage
10 then 80 (then 5 more): the 80%-threshold is crossed and exactly one
alert is in the queue. -/
theorem c7_quota_alert_once_witness :
    ((-1 : ℤ) ≤ 0) ∧ ((1 : ℤ) ≤ 100) ∧
    crossesQuota 100 [10, 80, 5] = true ∧
    (let s₂ := (({ records := [], alerts := [] } :
        SecretsManager).register_key "doubao" "key" 100 none).applyUsages
        "doubao" [10, 80, 5]
     s₂.records.lookup "doubao" = some
       { api_key := "key", quota_limit := 100, expires_at := none,
         usage := posSum [10, 80, 5], alerted := crossesQuota 100 [10, 80, 5] } ∧
     s₂.alerts.length = (({ records := [], alerts := [] } :
        SecretsManager).alerts.length) +
       (if crossesQuota 100 [10, 80, 5] then 1 else 0) ∧
     ∀ a ∈ s₂.alerts.drop (({ records := [], alerts := [] } :
        SecretsManager).alerts.length), alertOk "doubao" 100 none a) := by
  refine ⟨by decide, by decide, by with_unfolding_all decide, ?_⟩
  exact (c7_quota_alert_once { records := [], alerts := [] } "x" (-1)
    { records := [], alerts := [] } "doubao" "key" 100 none [10, 80, 5]
    (by decide) (by decide)).2


/-! ## C5 — response cache TTL and cache-note (supporting lemmas) -/

theorem lookup_assocSet_cache (m : CacheMap) (k : String × PromptType)
    (v : ℚ × LLMCall) : (assocSet m k v).lookup k = some v := by
  induction m with
  | nil => simp [assocSet, List.lookup]
  | cons p ps ih =>
    by_cases h : p.1 = k
    · simp [assocSet, h, List.lookup]
    · have hb : (k == p.1) = false :=
        beq_eq_false_iff_ne.mpr (fun x => h x.symm)
      simp [assocSet, h, List.lookup, hb, ih]

theorem read_cache_fresh (m : CacheMap) (k : String × PromptType)
    (call : LLMCall) (ttl t ε : ℚ) (hε : ε < ttl) :
    (read_cache ttl (write_cache m k t call) k (t + ε)).1 = some call := by
  unfold read_cache write_cache
  rw [lookup_assocSet_cache]
  have h1 : ¬ (t + ε - t > ttl) := by
    intro h
    have : ε > ttl := by linarith
    linarith
  have h2 : ¬ ttl < ε := not_lt.mpr (le_of_lt hε)
  simp [h1, h2]

theorem read_cache_expired (m : CacheMap) (k : String × PromptType)
    (call : LLMCall) (ttl t ε : ℚ) (hε : 0 < ε) :
    (read_cache ttl (write_cache m k t call) k (t + ttl + ε)).1 = none := by
  unfold read_cache write_cache
  rw [lookup_assocSet_cache]
  have h1 : t + ttl + ε - t > ttl := by linarith
  have h2 : ttl < ttl + ε := by linarith
  simp [h1, h2]

/-! ## Invariant of the online loop (shared by C2, C5 and C10) -/

theorem tfail_append_ok (l : List AttemptKind) : tfail (l ++ [.ok]) = 0 := by
  simp [tfail, List.takeWhile]

theorem tfail_append_fail (l : List AttemptKind) :
    tfail (l ++ [.fail]) = tfail l + 1 := by
  simp [tfail, List.takeWhile]

theorem tfail_append_sens (l : List AttemptKind) :
    tfail (l ++ [.sens]) = tfail l := by
  simp [tfail, List.takeWhile]

theorem pEvents_append (attempts : List Attempt) (a : Attempt) (p : String) :
    pEvents (attempts ++ [a]) p =
      pEvents attempts p ++ (if a.platform_key = p then [a.kind] else []) := by
  by_cases h : a.platform_key = p <;> simp [pEvents, List.filter_append, h]

theorem obsNumbered_append (l : List LLMObservation) (x : LLMObservation)
    (hl : obsNumbered l = true) (hx : x.iteration = l.length + 1) :
    obsNumbered (l ++ [x]) = true := by
  simp only [obsNumbered, List.all_eq_true] at hl ⊢
  intro io hio
  rw [List.enum_append] at hio
  simp only [List.mem_append] at hio
  rcases hio with h | h
  · exact hl io h
  · simp only [List.enumFrom, List.length_append] at h
    simp only [List.mem_singleton] at h
    subst h
    simpa using hx

theorem filter_erase_of_singleton {l : List String} (hnd : l.Nodup)
    (f f' : String → Bool) (p : String) (hp : f' p = false)
    (hothers : ∀ q, q ≠ p → f' q = f q) :
    (l.filter f).erase p = l.filter f' := by
  induction l with
  | nil => simp
  | cons x xs ih =>
    have hndx : xs.Nodup := (List.nodup_cons.mp hnd).2
    have hxnot : x ∉ xs := (List.nodup_cons.mp hnd).1
    by_cases hxp : x = p
    · subst hxp
      have hfilter : xs.filter f' = xs.filter f :=
        List.filter_congr (fun q hq => hothers q (fun h => hxnot (h ▸ hq)))
      have hpnotin : x ∉ xs.filter f := fun h => hxnot (List.mem_of_mem_filter h)
      by_cases hfx : f x = true
      · simp only [List.filter_cons, hfx, if_true, hp, Bool.false_eq_true,
          if_false]
        rw [List.erase_cons_head]
        exact hfilter.symm
      · have hfx' : f x = false := by simpa using hfx
        simp only [List.filter_cons, hfx', Bool.false_eq_true, if_false, hp]
        exact (List.erase_of_not_mem hpnotin).trans hfilter.symm
    · have hfx' : f' x = f x := hothers x hxp
      by_cases hfx : f x = true
      · simp only [List.filter_cons, hfx, hfx', if_true]
        rw [List.erase_cons_tail]
        · rw [ih hndx]
        · simpa using hxp
      · have hfxf : f x = false := by simpa using hfx
        simp only [List.filter_cons, hfxf, hfx', Bool.false_eq_true, if_false]
        exact ih hndx

theorem pEvents_extend_ne (attempts : List Attempt) (a : Attempt) (q : String)
    (hq : ¬ a.platform_key = q) :
    pEvents (attempts ++ [a]) q = pEvents attempts q := by
  rw [pEvents_append]
  simp [hq]

theorem pEvents_extend_eq (attempts : List Attempt) (a : Attempt) :
    pEvents (attempts ++ [a]) a.platform_key =
      pEvents attempts a.platform_key ++ [a.kind] := by
  rw [pEvents_append]
  simp

theorem PrefixOk_extend (attempts : List Attempt) (a : Attempt)
    (h3 : tfail (pEvents attempts a.platform_key) < 3)
    (hpo : PrefixOk attempts) : PrefixOk (attempts ++ [a]) := by
  intro p i hi
  by_cases hp : a.platform_key = p
  · subst hp
    rw [pEvents_extend_eq] at hi ⊢
    rw [List.length_append, List.length_singleton] at hi
    have hile : i ≤ (pEvents attempts a.platform_key).length := by omega
    rw [List.take_append_of_le_length hile]
    rcases lt_or_eq_of_le hile with h | h
    · exact hpo _ i h
    · rw [h, List.take_length]
      exact h3
  · rw [pEvents_extend_ne attempts a p hp] at hi ⊢
    exact hpo p i hi

theorem tfail_le_extend (attempts : List Attempt) (a : Attempt)
    (h3 : tfail (pEvents attempts a.platform_key) < 3)
    (hall : ∀ q, tfail (pEvents attempts q) ≤ 3) :
    ∀ q, tfail (pEvents (attempts ++ [a]) q) ≤ 3 := by
  intro q
  by_cases hp : a.platform_key = q
  · subst hp
    rw [pEvents_extend_eq]
    cases hk : a.kind
    · rw [tfail_append_ok]
      omega
    · rw [tfail_append_fail]
      omega
    · rw [tfail_append_sens]
      exact hall _
  · rw [pEvents_extend_ne attempts a q hp]
    exact hall q

theorem activeChar_congr (cfg : OrchConfig) (A B : List Attempt)
    (h : ∀ q, q ∈ platformKeys →
      decide (tfail (pEvents A q) < 3) = decide (tfail (pEvents B q) < 3)) :
    activeChar cfg A = activeChar cfg B := by
  unfold activeChar
  exact List.filter_congr (fun q hq => by rw [h q hq])

theorem fnUpdate_self {α : Type} (f : String → α) (k : String) (v : α) :
    fnUpdate f k v k = v := by
  simp [fnUpdate]

theorem fnUpdate_ne {α : Type} (f : String → α) (k q : String) (v : α)
    (h : ¬ q = k) : fnUpdate f k v q = f q := by
  simp [fnUpdate, h]

theorem platformKeys_nodup : platformKeys.Nodup := by decide

theorem promptStep_good (cfg : OrchConfig) (env : OnlineEnv) (τ : String)
    (iter : ℕ) (pk : String) (st : OnlineState)
    (ic : List (PromptType × LLMCall)) (pt : PromptType)
    (hpk : pk ∈ st.active) (hst : StGood cfg st) (hic : ICGood st ic) :
    match promptStep cfg env τ iter pk st ic pt with
    | .aborted st' => StGood cfg st' ∧ st'.obs = st.obs
    | .next st' ic' rm =>
      StGood cfg st' ∧ ICGood st' ic' ∧ st'.obs = st.obs ∧
        (rm = false → pk ∈ st'.active) := by
  obtain ⟨hN, hNote, hObsNote, hStr, hAct, hLe, hPre⟩ := hst
  have hmem : pk ∈ platformKeys ∧ (cfg.clients pk &&
      decide (tfail (pEvents st.attempts pk) < 3)) = true := by
    rw [hAct] at hpk
    exact List.mem_filter.mp hpk
  have hcl : cfg.clients pk = true := by
    have h := hmem.2
    simp only [Bool.and_eq_true, decide_eq_true_eq] at h
    exact h.1
  have h3 : tfail (pEvents st.attempts pk) < 3 := by
    have h := hmem.2
    simp only [Bool.and_eq_true, decide_eq_true_eq] at h
    exact h.2
  unfold promptStep
  cases hresp : env.resp iter pk pt with
  | some v =>
    obtain ⟨content, fin, lat⟩ := v
    dsimp only
    by_cases hsens : contains_sensitive_output content = true
    · -- sensitive abort
      rw [if_pos hsens]
      have hatt : pEvents (st.attempts ++ [⟨iter, pk, pt, .sens⟩]) pk =
          pEvents st.attempts pk ++ [.sens] :=
        pEvents_extend_eq st.attempts ⟨iter, pk, pt, .sens⟩
      refine ⟨⟨hN, hNote, hObsNote, ?_, ?_, ?_, ?_⟩, rfl⟩
      · intro q
        by_cases hq : q = pk
        · rw [hq]
          dsimp only
          rw [hatt, tfail_append_sens]
          exact hStr pk
        · dsimp only
          rw [pEvents_extend_ne st.attempts ⟨iter, pk, pt, .sens⟩ q
            (fun h => hq h.symm)]
          exact hStr q
      · dsimp only
        rw [hAct]
        apply activeChar_congr
        intro q hq
        by_cases hqp : q = pk
        · rw [hqp, hatt, tfail_append_sens]
        · rw [pEvents_extend_ne st.attempts ⟨iter, pk, pt, .sens⟩ q
            (fun h => hqp h.symm)]
      · exact tfail_le_extend st.attempts ⟨iter, pk, pt, .sens⟩ h3 hLe
      · exact PrefixOk_extend st.attempts ⟨iter, pk, pt, .sens⟩ h3 hPre
    · -- live success
      rw [if_neg hsens]
      dsimp only
      have hatt : pEvents (st.attempts ++ [⟨iter, pk, pt, .ok⟩]) pk =
          pEvents st.attempts pk ++ [.ok] :=
        pEvents_extend_eq st.attempts ⟨iter, pk, pt, .ok⟩
      refine ⟨⟨hN, hNote, hObsNote, ?_, ?_, ?_, ?_⟩, ?_, rfl, fun _ => hpk⟩
      · intro q
        by_cases hq : q = pk
        · rw [hq]
          dsimp only
          rw [fnUpdate_self, hatt, tfail_append_ok]
        · dsimp only
          rw [fnUpdate_ne _ _ _ _ hq,
            pEvents_extend_ne st.attempts ⟨iter, pk, pt, .ok⟩ q
              (fun h => hq h.symm)]
          exact hStr q
      · dsimp only
        rw [hAct]
        apply activeChar_congr
        intro q hq
        by_cases hqp : q = pk
        · rw [hqp, hatt, tfail_append_ok]
          simp [h3]
        · rw [pEvents_extend_ne st.attempts ⟨iter, pk, pt, .ok⟩ q
            (fun h => hqp h.symm)]
      · exact tfail_le_extend st.attempts ⟨iter, pk, pt, .ok⟩ h3 hLe
      · exact PrefixOk_extend st.attempts ⟨iter, pk, pt, .ok⟩ h3 hPre
      · intro c hc hcach
        rcases List.mem_append.mp hc with h | h
        · exact hic c h hcach
        · simp only [List.mem_singleton] at h
          subst h
          simp at hcach
  | none =>
    dsimp only
    have hatt : pEvents (st.attempts ++ [⟨iter, pk, pt, .fail⟩]) pk =
        pEvents st.attempts pk ++ [.fail] :=
      pEvents_extend_eq st.attempts ⟨iter, pk, pt, .fail⟩
    have htnew : tfail (pEvents (st.attempts ++ [⟨iter, pk, pt, .fail⟩]) pk) =
        tfail (pEvents st.attempts pk) + 1 := by
      rw [hatt, tfail_append_fail]
    refine ⟨⟨hN, ?_, ?_, ?_, ?_, ?_, ?_⟩, ?_, rfl, ?_⟩
    · -- cache note stays none or canonical
      cases hrc : (read_cache cfg.cache_ttl st.cache (pk, pt)
          (env.etime iter pk pt)).1 with
      | some cc => simp
      | none => simpa using hNote
    · -- cached observations force the note
      intro ob hob hc
      cases hrc : (read_cache cfg.cache_ttl st.cache (pk, pt)
          (env.etime iter pk pt)).1 with
      | some cc => simp
      | none => simpa using hObsNote ob hob hc
    · -- strikes track the failure streak
      intro q
      by_cases hq : q = pk
      · rw [hq]
        dsimp only
        rw [fnUpdate_self, htnew, hStr pk]
      · dsimp only
        rw [fnUpdate_ne _ _ _ _ hq,
          pEvents_extend_ne st.attempts ⟨iter, pk, pt, .fail⟩ q
            (fun h => hq h.symm)]
        exact hStr q
    · -- active set characterisation
      by_cases hrm : 3 ≤ st.strikes pk + 1
      · have hrmp : 3 ≤ fnUpdate st.strikes pk (st.strikes pk + 1) pk := by
          rw [fnUpdate_self]
          exact hrm
        dsimp only
        rw [if_pos hrmp, hAct]
        simp only [activeChar]
        apply filter_erase_of_singleton platformKeys_nodup
        · have hge : ¬ tfail (pEvents (st.attempts ++
              [⟨iter, pk, pt, .fail⟩]) pk) < 3 := by
            rw [htnew, ← hStr pk]
            omega
          simp [hge]
        · intro q hq
          rw [pEvents_extend_ne st.attempts ⟨iter, pk, pt, .fail⟩ q
            (fun h => hq h.symm)]
      · have hrmp : ¬ 3 ≤ fnUpdate st.strikes pk (st.strikes pk + 1) pk := by
          rw [fnUpdate_self]
          exact hrm
        dsimp only
        rw [if_neg hrmp, hAct]
        apply activeChar_congr
        intro q hq
        by_cases hqp : q = pk
        · rw [hqp, htnew, ← hStr pk]
          have h1 : st.strikes pk < 3 := by omega
          have h2 : st.strikes pk + 1 < 3 := by omega
          simp [h1, h2]
        · rw [pEvents_extend_ne st.attempts ⟨iter, pk, pt, .fail⟩ q
            (fun h => hqp h.symm)]
    · exact tfail_le_extend st.attempts ⟨iter, pk, pt, .fail⟩ h3 hLe
    · exact PrefixOk_extend st.attempts ⟨iter, pk, pt, .fail⟩ h3 hPre
    · -- iteration_calls stay linked to the note
      cases hrc : (read_cache cfg.cache_ttl st.cache (pk, pt)
          (env.etime iter pk pt)).1 with
      | some cc =>
        intro c hc hcach
        simp
      | none =>
        intro c hc hcach
        simpa using hic c hc hcach
    · -- when not removed the provider stays active
      intro hrm
      have hrmp : ¬ 3 ≤ fnUpdate st.strikes pk (st.strikes pk + 1) pk :=
        of_decide_eq_false hrm
      rw [if_neg hrmp]
      exact hpk

theorem promptsLoop_good (cfg : OrchConfig) (env : OnlineEnv) (τ : String)
    (iter : ℕ) (pk : String) (pts : List PromptType) (st : OnlineState)
    (ic : List (PromptType × LLMCall))
    (hpk : pk ∈ st.active) (hst : StGood cfg st) (hic : ICGood st ic) :
    match promptsLoop cfg env τ iter pk pts st ic with
    | .aborted st' => StGood cfg st' ∧ st'.obs = st.obs
    | .next st' ic' _ => StGood cfg st' ∧ ICGood st' ic' ∧ st'.obs = st.obs := by
  induction pts generalizing st ic with
  | nil => exact ⟨hst, hic, rfl⟩
  | cons pt pts ih =>
    have h := promptStep_good cfg env τ iter pk st ic pt hpk hst hic
    unfold promptsLoop
    cases hps : promptStep cfg env τ iter pk st ic pt with
    | aborted st' =>
      rw [hps] at h
      exact h
    | next st' ic' rm =>
      rw [hps] at h
      obtain ⟨hst', hic', hobs', hact'⟩ := h
      by_cases hrm : rm = true
      · simp only [hrm, if_true]
        exact ⟨hst', hic', hobs'⟩
      · have hrmf : rm = false := by simpa using hrm
        simp only [hrmf, Bool.false_eq_true, if_false]
        have hres := ih st' ic' (hact' hrmf) hst' hic'
        cases hpl : promptsLoop cfg env τ iter pk pts st' ic' with
        | aborted st'' =>
          rw [hpl] at hres
          exact ⟨hres.1, hres.2.trans hobs'⟩
        | next st'' ic'' rm' =>
          rw [hpl] at hres
          exact ⟨hres.1, hres.2.1, hres.2.2.trans hobs'⟩

theorem calls_to_observation_iteration (cfg : OrchConfig)
    (r : DiagnosisRequest) (it : ℕ) (pl pk : String)
    (calls : List (PromptType × LLMCall)) :
    (calls_to_observation cfg r it pl pk calls).iteration = it := rfl

theorem calls_to_observation_cached (cfg : OrchConfig)
    (r : DiagnosisRequest) (it : ℕ) (pl pk : String)
    (calls : List (PromptType × LLMCall)) :
    (calls_to_observation cfg r it pl pk calls).cached =
      calls.any (fun c => c.2.cached) := rfl

theorem platformStep_good (cfg : OrchConfig) (r : DiagnosisRequest)
    (env : OnlineEnv) (τ : String) (iter : ℕ) (st : OnlineState) (pk : String)
    (hst : StGood cfg st) :
    match platformStep cfg r env τ iter st pk with
    | .error st' => StGood cfg st'
    | .ok st' => StGood cfg st' := by
  unfold platformStep
  by_cases hpk : pk ∈ st.active
  · simp only [hpk, if_true]
    have h := promptsLoop_good cfg env τ iter pk promptList st [] hpk hst
      (fun c hc => absurd hc (List.not_mem_nil c))
    cases hpl : promptsLoop cfg env τ iter pk promptList st [] with
    | aborted st' =>
      rw [hpl] at h
      exact h.1
    | next st' ic rm =>
      rw [hpl] at h
      obtain ⟨hst', hic', hobs'⟩ := h
      by_cases hicnil : ic = []
      · simp only [hicnil, if_true]
        exact hst'
      · simp only [hicnil, if_false]
        obtain ⟨hN, hNote, hObsNote, hStr, hAct, hLe, hPre⟩ := hst'
        refine ⟨?_, hNote, ?_, hStr, hAct, hLe, hPre⟩
        · exact obsNumbered_append _ _ hN
            (calls_to_observation_iteration cfg r _ _ pk ic)
        · intro ob hob
          rcases List.mem_append.mp hob with h | h
          · exact hObsNote ob h
          · simp only [List.mem_singleton] at h
            subst h
            rw [calls_to_observation_cached]
            intro hany
            obtain ⟨c, hc, hcc⟩ := List.any_eq_true.mp hany
            exact hic' c hc (by simpa using hcc)
  · simp only [hpk, if_false]
    exact hst

theorem platformsLoop_good (cfg : OrchConfig) (r : DiagnosisRequest)
    (env : OnlineEnv) (τ : String) (iter : ℕ) (pks : List String)
    (st : OnlineState) (hst : StGood cfg st) :
    match platformsLoop cfg r env τ iter pks st with
    | .error st' => StGood cfg st'
    | .ok st' => StGood cfg st' := by
  induction pks generalizing st with
  | nil => exact hst
  | cons pk pks ih =>
    unfold platformsLoop
    have h := platformStep_good cfg r env τ iter st pk hst
    cases hps : platformStep cfg r env τ iter st pk with
    | error st' =>
      rw [hps] at h
      exact h
    | ok st' =>
      rw [hps] at h
      exact ih st' h

theorem iterationsLoop_good (cfg : OrchConfig) (r : DiagnosisRequest)
    (env : OnlineEnv) (τ : String) (remaining iter : ℕ) (st : OnlineState)
    (hst : StGood cfg st) :
    match iterationsLoop cfg r env τ remaining iter st with
    | .error st' => StGood cfg st'
    | .ok st' => StGood cfg st' := by
  induction remaining generalizing iter st with
  | zero => exact hst
  | succ k ih =>
    unfold iterationsLoop
    have h := platformsLoop_good cfg r env τ iter st.active st hst
    cases hps : platformsLoop cfg r env τ iter st.active st with
    | error st' =>
      rw [hps] at h
      exact h
    | ok st' =>
      rw [hps] at h
      by_cases hempty : st'.active = []
      · simp only [hempty, if_true]
        exact h
      · simp only [hempty, if_false]
        exact ih (iter + 1) st' h

theorem onlineInit_good (cfg : OrchConfig) (cache₀ : CacheMap) :
    StGood cfg (onlineInit cfg cache₀) := by
  refine ⟨rfl, Or.inl rfl, ?_, ?_, ?_, ?_, ?_⟩
  · intro ob hob
    exact absurd hob (List.not_mem_nil ob)
  · intro q
    rfl
  · unfold onlineInit activeChar
    dsimp only
    apply List.filter_congr
    intro q hq
    simp [pEvents, tfail]
  · intro q
    simp [pEvents, tfail, onlineInit]
  · intro p i hi
    simp only [pEvents, onlineInit, List.filter_nil, List.map_nil,
      List.length_nil] at hi
    omega

theorem simulate_online_run_good (cfg : OrchConfig) (r : DiagnosisRequest)
    (iterations : ℕ) (τ : String) (env : OnlineEnv) (cache₀ : CacheMap) :
    StGood cfg (simulate_online_run cfg r iterations τ env cache₀).st := by
  unfold simulate_online_run
  have h := iterationsLoop_good cfg r env τ iterations 0 (onlineInit cfg cache₀)
    (onlineInit_good cfg cache₀)
  cases hit : iterationsLoop cfg r env τ iterations 0 (onlineInit cfg cache₀) with
  | error st => rw [hit] at h; exact h
  | ok st => rw [hit] at h; exact h

theorem obsNumbered_get (L : List LLMObservation) :
    obsNumbered L = true ↔
      ∀ (i : ℕ) (h : i < L.length), (L.get ⟨i, h⟩).iteration = i + 1 := by
  unfold obsNumbered
  rw [List.all_eq_true]
  constructor
  · intro hall i h
    have hmem : (i, L.get ⟨i, h⟩) ∈ L.enum := by
      rw [List.mem_iff_getElem]
      refine ⟨i, by simpa using h, ?_⟩
      simp [List.getElem_enum]
    have := hall _ hmem
    simpa using this
  · intro hget io hio
    obtain ⟨j, hj, hje⟩ := List.mem_iff_getElem.mp hio
    rw [List.getElem_enum] at hje
    have hjl : j < L.length := by simpa using hj
    have := hget j hjl
    rw [← hje]
    simpa using this

theorem offlineObservations_numbered (cfg : OrchConfig) (d : String)
    (ind : Industry) (n : ℕ) :
    obsNumbered (offlineObservations cfg d ind n) = true := by
  rw [obsNumbered_get]
  intro i h
  unfold offlineObservations at h ⊢
  simp only [List.get_eq_getElem, List.getElem_map, List.getElem_enum]

theorem offlineObservations_not_cached (cfg : OrchConfig) (d : String)
    (ind : Industry) (n : ℕ) :
    ∀ ob ∈ offlineObservations cfg d ind n, ob.cached = false := by
  intro ob hob
  unfold offlineObservations at hob
  obtain ⟨oi, hoi, rfl⟩ := List.mem_map.mp hob
  rw [List.mem_enum_iff_getElem?] at hoi
  have h2 := List.getElem?_mem hoi
  obtain ⟨inner, hinner, h3⟩ := List.mem_flatten.mp h2
  obtain ⟨pk, hpk, rfl⟩ := List.mem_map.mp hinner
  obtain ⟨it, hit, hoe⟩ := List.mem_map.mp h3
  show oi.2.cached = false
  rw [← hoe]

/-! ## C10 — observation numbering -/

/-- C10: for every run result `simulate` returns (offline synthetic or
online), the `iteration` fields of the observations are exactly
`1, 2, …, n` in list order — each observation's `iteration` equals its
1-based list position (both paths number with
`len(observations) + 1` at append time), so numbers stay consecutive
even when (loop-iteration, provider) pairs yield no observation. -/
theorem c10_observation_iterations_consecutive (cfg : OrchConfig)
    (r : DiagnosisRequest) (n : ℕ) (τ : String) (env : OnlineEnv)
    (c₀ : CacheMap) :
    obsNumberedE (simulate cfg r n τ env c₀) = true := by
  unfold simulate
  by_cases hnc : platformKeys.all (fun pk => !cfg.clients pk) = true
  · simp only [hnc, if_true]
    exact offlineObservations_numbered cfg r.product_description r.industry n
  · simp only [hnc, Bool.false_eq_true, if_false]
    unfold simulate_online
    by_cases hempty : platformKeys.filter cfg.clients = []
    · simp only [hempty, if_true]
      exact offlineObservations_numbered cfg r.product_description r.industry n
    · simp only [hempty, if_false]
      have h := simulate_online_run_good cfg r n τ env c₀
      by_cases hsens : (simulate_online_run cfg r n τ env c₀).sensitive = true
      · simp [hsens, obsNumberedE]
      · have hsf : (simulate_online_run cfg r n τ env c₀).sensitive = false := by
          simpa using hsens
        simp only [hsf, Bool.false_eq_true, if_false]
        exact h.1

/-! ## C5 — cache TTL semantics and the cache-note -/

/-- C5: (i) a cache entry written at `t` and read at `t + ε` with
`ε < TTL` returns the stored call; (ii) a read at `t + TTL + ε` with
`ε > 0` returns nothing (and the entry is popped); (iii) whenever a
run result carries an observation served from cache
(`cached = true`, which happens exactly when a cached value was
substituted for a failed live call), the user-facing cache note is set
on the result. -/
theorem c5_cache_ttl_and_note (m : CacheMap) (k : String × PromptType)
    (call : LLMCall) (ttl t ε₁ ε₂ : ℚ) (cfg : OrchConfig)
    (r : DiagnosisRequest) (n : ℕ) (τ : String) (env : OnlineEnv)
    (c₀ : CacheMap) (res : LLMRunResult)
    (h1 : ε₁ < ttl) (h2 : 0 < ε₂)
    (hres : simulate cfg r n τ env c₀ = Except.ok res) :
    (read_cache ttl (write_cache m k t call) k (t + ε₁)).1 = some call ∧
    (read_cache ttl (write_cache m k t call) k (t + ttl + ε₂)).1 = none ∧
    (∀ ob ∈ res.observations, ob.cached = true →
      res.cache_note = some cacheNoteText) := by
  refine ⟨read_cache_fresh m k call ttl t ε₁ h1,
    read_cache_expired m k call ttl t ε₂ h2, ?_⟩
  intro ob hob hc
  unfold simulate at hres
  by_cases hnc : platformKeys.all (fun pk => !cfg.clients pk) = true
  · simp only [hnc, if_true, Except.ok.injEq] at hres
    subst hres
    have := offlineObservations_not_cached cfg r.product_description
      r.industry n ob hob
    rw [this] at hc
    cases hc
  · simp only [hnc, Bool.false_eq_true, if_false] at hres
    unfold simulate_online at hres
    by_cases hempty : platformKeys.filter cfg.clients = []
    · simp only [hempty, if_true, Except.ok.injEq] at hres
      subst hres
      have := offlineObservations_not_cached cfg r.product_description
        r.industry n ob hob
      rw [this] at hc
      cases hc
    · simp only [hempty, if_false] at hres
      have h := simulate_online_run_good cfg r n τ env c₀
      by_cases hsens : (simulate_online_run cfg r n τ env c₀).sensitive = true
      · rw [if_pos hsens] at hres
        cases hres
      · rw [if_neg hsens] at hres
        simp only [Except.ok.injEq] at hres
        subst hres
        exact h.2.2.1 ob hob hc

/-! ## C2 — failure streaks and the circuit breaker -/

/-- C2: for every online run and configured provider `p`, with
`os = pEvents … p` the trace of `p`'s attempted calls:
(i) every attempt was made while `p`'s streak of trailing failures was
still below 3 — equivalently, after the streak reaches 3 no further
call is ever attempted against `p` in that run; (ii) the final
`strike_counts[p]` equals the number of trailing failures since `p`'s
last success (each failure increments it, each success resets it);
(iii) `p` is still in the active set iff that streak never reached 3 —
removal happens exactly at the third consecutive failure; (iv) the
streak never exceeds 3. -/
theorem c2_circuit_breaker (cfg : OrchConfig) (r : DiagnosisRequest)
    (n : ℕ) (τ : String) (env : OnlineEnv) (c₀ : CacheMap) (p : String)
    (hp : p ∈ platformKeys) (hcl : cfg.clients p = true) :
    (∀ i, i < (pEvents (simulate_online_run cfg r n τ env c₀).st.attempts
        p).length →
      tfail ((pEvents (simulate_online_run cfg r n τ env c₀).st.attempts
        p).take i) < 3) ∧
    (simulate_online_run cfg r n τ env c₀).st.strikes p =
      tfail (pEvents (simulate_online_run cfg r n τ env c₀).st.attempts p) ∧
    (p ∈ (simulate_online_run cfg r n τ env c₀).st.active ↔
      tfail (pEvents (simulate_online_run cfg r n τ env c₀).st.attempts p)
        < 3) ∧
    tfail (pEvents (simulate_online_run cfg r n τ env c₀).st.attempts p)
      ≤ 3 := by
  have h := simulate_online_run_good cfg r n τ env c₀
  obtain ⟨hN, hNote, hObsNote, hStr, hAct, hLe, hPre⟩ := h
  refine ⟨fun i hi => hPre p i hi, hStr p, ?_, hLe p⟩
  rw [hAct]
  unfold activeChar
  rw [List.mem_filter]
  constructor
  · intro hmem
    have := hmem.2
    simp only [Bool.and_eq_true, decide_eq_true_eq] at this
    exact this.2
  · intro hlt
    exact ⟨hp, by simp [hcl, hlt]⟩

set_option maxRecDepth 2048 in
set_option maxHeartbeats 1000000 in
/-- Witness for C5: concrete TTL arithmetic plus the flaky-provider
run, whose second observation is served from cache (`cached = true`)
and whose result carries the canonical cache note. -/
theorem c5_cache_ttl_and_note_witness :
    ((5 : ℚ) < 10) ∧ ((0 : ℚ) < 1) ∧
    ((simulate fixtureOrchLight fixtureReq 2 "t" fixtureEnvFlaky
        []).toOption.getD fixtureDegradedResult).observations.map
        (fun ob => ob.cached) = [false, true] ∧
    ((simulate fixtureOrchLight fixtureReq 2 "t" fixtureEnvFlaky
        []).toOption.getD fixtureDegradedResult).cache_note =
      some cacheNoteText ∧
    ((read_cache 10 (write_cache [] ("doubao", PromptType.discovery) 0
        fixtureCacheCall) ("doubao", PromptType.discovery) (0 + 5)).1
      = some fixtureCacheCall ∧
     (read_cache 10 (write_cache [] ("doubao", PromptType.discovery) 0
        fixtureCacheCall) ("doubao", PromptType.discovery) (0 + 10 + 1)).1
      = none ∧
     (∀ ob ∈ ((simulate fixtureOrchLight fixtureReq 2 "t"
         fixtureEnvFlaky []).toOption.getD
         fixtureDegradedResult).observations, ob.cached = true →
       ((simulate fixtureOrchLight fixtureReq 2 "t" fixtureEnvFlaky
         []).toOption.getD fixtureDegradedResult).cache_note =
         some cacheNoteText)) := by
  have hsome : (simulate fixtureOrchLight fixtureReq 2 "t" fixtureEnvFlaky
      []).toOption.isSome = true := by
    with_unfolding_all decide
  have hres := except_eq_ok_getD _ fixtureDegradedResult hsome
  have h := c5_cache_ttl_and_note [] ("doubao", PromptType.discovery)
    fixtureCacheCall 10 0 5 1 fixtureOrchLight fixtureReq 2 "t"
    fixtureEnvFlaky []
    ((simulate fixtureOrchLight fixtureReq 2 "t" fixtureEnvFlaky
      []).toOption.getD fixtureDegradedResult)
    (by norm_num) (by norm_num) hres
  have hobs : ((simulate fixtureOrchLight fixtureReq 2 "t" fixtureEnvFlaky
      []).toOption.getD fixtureDegradedResult).observations.map
      (fun ob => ob.cached) = [false, true] := by
    with_unfolding_all decide
  have htrue : true ∈ ((simulate fixtureOrchLight fixtureReq 2 "t"
      fixtureEnvFlaky []).toOption.getD
      fixtureDegradedResult).observations.map (fun ob => ob.cached) := by
    rw [hobs]
    simp
  obtain ⟨ob, hob, hc⟩ := List.mem_map.mp htrue
  exact ⟨by norm_num, by norm_num, hobs, h.2.2 ob hob hc, h⟩

/-- Witness for C2: with both providers configured and every call
failing, doubao's trace is exactly three failures, its final streak is
3, and it has been removed from the active set. -/
theorem c2_circuit_breaker_witness :
    ("doubao" ∈ platformKeys) ∧
    fixtureEngineBoth.ocfg.clients "doubao" = true ∧
    pEvents (simulate_online_run fixtureEngineBoth.ocfg fixtureReq 3 "t"
        fixtureEnvAllFail []).st.attempts "doubao" =
      [.fail, .fail, .fail] ∧
    ((∀ i, i < (pEvents (simulate_online_run fixtureEngineBoth.ocfg
        fixtureReq 3 "t" fixtureEnvAllFail []).st.attempts
        "doubao").length →
      tfail ((pEvents (simulate_online_run fixtureEngineBoth.ocfg fixtureReq
        3 "t" fixtureEnvAllFail []).st.attempts "doubao").take i) < 3) ∧
    (simulate_online_run fixtureEngineBoth.ocfg fixtureReq 3 "t"
        fixtureEnvAllFail []).st.strikes "doubao" =
      tfail (pEvents (simulate_online_run fixtureEngineBoth.ocfg fixtureReq
        3 "t" fixtureEnvAllFail []).st.attempts "doubao") ∧
    ("doubao" ∈ (simulate_online_run fixtureEngineBoth.ocfg fixtureReq 3 "t"
        fixtureEnvAllFail []).st.active ↔
      tfail (pEvents (simulate_online_run fixtureEngineBoth.ocfg fixtureReq
        3 "t" fixtureEnvAllFail []).st.attempts "doubao") < 3) ∧
    tfail (pEvents (simulate_online_run fixtureEngineBoth.ocfg fixtureReq 3
        "t" fixtureEnvAllFail []).st.attempts "doubao") ≤ 3) := by
  refine ⟨by decide, by decide, by decide, ?_⟩
  exact c2_circuit_breaker fixtureEngineBoth.ocfg fixtureReq 3 "t"
    fixtureEnvAllFail [] "doubao" (by decide) (by decide)

/-! ## C4 — version counter and the catch-up retry -/

theorem filter_clients_ne_nil (cfg : OrchConfig)
    (h : platformKeys.all (fun pk => !cfg.clients pk) = false) :
    ¬ platformKeys.filter cfg.clients = [] := by
  cases hd : cfg.clients "doubao" <;> cases hds : cfg.clients "deepseek" <;>
    simp [platformKeys, hd, hds] at h ⊢

/-- On the live path (some client configured), `degraded` is exactly
"zero observations" (`llm.py` lines 537-552). -/
theorem simulate_live_degraded_iff (cfg : OrchConfig) (r : DiagnosisRequest)
    (n : ℕ) (τ : String) (env : OnlineEnv) (c₀ : CacheMap)
    (res : LLMRunResult)
    (hcl : platformKeys.all (fun pk => !cfg.clients pk) = false)
    (hres : simulate cfg r n τ env c₀ = Except.ok res) :
    res.degraded = decide (res.observations = []) := by
  unfold simulate at hres
  rw [if_neg (by simp [hcl])] at hres
  unfold simulate_online at hres
  rw [if_neg (filter_clients_ne_nil cfg hcl)] at hres
  by_cases hsens : (simulate_online_run cfg r n τ env c₀).sensitive = true
  · rw [if_pos hsens] at hres
    cases hres
  · rw [if_neg hsens] at hres
    simp only [Except.ok.injEq] at hres
    subst hres
    rfl

/-- C4: the version counter for an identity key starts at 1 and is
bumped by exactly 1 per produced report (`run` and the catch-up path
both go through `_next_report_version_for_key`); the catch-up retry
dispatches an update notification — carrying the freshly incremented
version and the fresh SOV / negative-rate figures — exactly when the
re-run completes live: no sensitive-content error, no cache note, not
degraded (on the live path "not degraded" already means "has
observations").  In every other case the background job completes
without touching the store or sending anything. -/
theorem c4_version_counter_and_retry (store : VersionStore) (key : String)
    (e : EngineConfig) (r : DiagnosisRequest) (τ : String) (env : OnlineEnv)
    (c₀ : CacheMap)
    (hcl : platformKeys.all (fun pk => !e.ocfg.clients pk) = false) :
    ((store.lookup key = none →
        (next_report_version_for_key store key).1 = 1) ∧
      (next_report_version_for_key store key).1 =
        (store.lookup key).getD 0 + 1 ∧
      (next_report_version_for_key store key).2.lookup key =
        some ((store.lookup key).getD 0 + 1)) ∧
    (∀ res, simulate e.ocfg r e.iterations τ env c₀ = Except.ok res →
      (res.cache_note = none ∧ res.degraded = false →
        retry_realtime_refresh e r τ env c₀ store =
          (assocSet store (version_key r)
            ((store.lookup (version_key r)).getD 0 + 1),
           some
            { to_email := r.work_email,
              report_version := (store.lookup (version_key r)).getD 0 + 1,
              task_id := res.task_id,
              sov_percentage := (build_metrics_from_observations
                res.observations r e.iterations res.coverage).sov_percentage,
              negative_rate := (build_metrics_from_observations
                res.observations r e.iterations res.coverage).negative_rate })) ∧
      (res.cache_note ≠ none ∨ res.degraded = true →
        retry_realtime_refresh e r τ env c₀ store = (store, none))) ∧
    (simulate e.ocfg r e.iterations τ env c₀ = Except.error () →
      retry_realtime_refresh e r τ env c₀ store = (store, none)) := by
  refine ⟨⟨?_, ?_, ?_⟩, ?_, ?_⟩
  · intro hnone
    unfold next_report_version_for_key
    rw [hnone]
    rfl
  · rfl
  · unfold next_report_version_for_key
    exact lookup_assocSet store key _
  · intro res hres
    constructor
    · rintro ⟨hnote, hdeg⟩
      have hobs : ¬ res.observations = [] := by
        have hiff := simulate_live_degraded_iff e.ocfg r e.iterations τ env
          c₀ res hcl hres
        rw [hdeg] at hiff
        intro hnil
        rw [hnil] at hiff
        simp at hiff
      unfold retry_realtime_refresh
      rw [hres]
      dsimp only
      rw [if_neg (by simp [hnote, hdeg, hobs])]
      rfl
    · intro hbad
      unfold retry_realtime_refresh
      rw [hres]
      dsimp only
      rw [if_pos ?_]
      rcases hbad with h | h
      · simp [Option.isSome_iff_ne_none.mpr h]
      · simp [h]
  · intro herr
    unfold retry_realtime_refresh
    rw [herr]

/-- Witness for C4: with the doubao provider configured and every call
succeeding live, a fresh key starts at version 1, and the catch-up
retry on a fresh store dispatches a notification and stores version 1
for the request's identity key. -/
theorem c4_version_counter_and_retry_witness :
    (platformKeys.all (fun pk => !fixtureEngineLight.ocfg.clients pk)
      = false) ∧
    (next_report_version_for_key [] "k").1 = 1 ∧
    (retry_realtime_refresh fixtureEngineLight fixtureReq "t"
      fixtureEnvAllOk [] []).2.isSome = true ∧
    (retry_realtime_refresh fixtureEngineLight fixtureReq "t"
      fixtureEnvAllOk [] []).1.lookup (version_key fixtureReq) = some 1 := by
  have h := c4_version_counter_and_retry [] "k" fixtureEngineLight
    fixtureReq "t" fixtureEnvAllOk [] (by decide)
  have hsome : (simulate fixtureEngineLight.ocfg fixtureReq
      fixtureEngineLight.iterations "t" fixtureEnvAllOk
      []).toOption.isSome = true := by
    with_unfolding_all decide
  have hsim := except_eq_ok_getD _ fixtureDegradedResult hsome
  have hemit := (h.2.1 _ hsim).1
    ⟨by with_unfolding_all decide, by with_unfolding_all decide⟩
  refine ⟨by decide, h.1.1 rfl, ?_, ?_⟩
  · rw [hemit]
    rfl
  · rw [hemit]
    exact lookup_assocSet [] (version_key fixtureReq) _

/-! ## C8 — trace store retention (supporting lemmas) -/

theorem lookup_filter_keep {β : Type} (l : List (String × β))
    (pred : String × β → Bool) (tid : String) (e : β)
    (hl : l.lookup tid = some e) (hp : pred (tid, e) = true) :
    (l.filter pred).lookup tid = some e := by
  induction l with
  | nil => simp [List.lookup] at hl
  | cons p ps ih =>
    obtain ⟨k, b⟩ := p
    by_cases hk : tid = k
    · subst hk
      have he : b = e := by simpa [List.lookup] using hl
      subst he
      simp [List.filter_cons, hp, List.lookup]
    · have hb : (tid == k) = false := beq_eq_false_iff_ne.mpr hk
      have hl' : ps.lookup tid = some e := by simpa [List.lookup, hb] using hl
      by_cases hkeep : pred (k, b) = true
      · simp [List.filter_cons, hkeep, List.lookup, hb, ih hl']
      · simp [List.filter_cons, hkeep, ih hl']

theorem lookup_filter_sound {β : Type} (l : List (String × β))
    (pred : String × β → Bool) (tid : String) (e : β)
    (hl : (l.filter pred).lookup tid = some e) : pred (tid, e) = true := by
  induction l with
  | nil => simp [List.lookup] at hl
  | cons p ps ih =>
    obtain ⟨k, b⟩ := p
    rw [List.filter_cons] at hl
    by_cases hkeep : pred (k, b) = true
    · rw [if_pos hkeep] at hl
      by_cases hk : tid = k
      · subst hk
        have he : b = e := by simpa [List.lookup] using hl
        subst he
        exact hkeep
      · have hb : (tid == k) = false := beq_eq_false_iff_ne.mpr hk
        exact ih (by simpa [List.lookup, hb] using hl)
    · rw [if_neg hkeep] at hl
      exact ih hl

theorem lookup_cleanupRaw_mem (l : List (String × List RawTraceEntry))
    (pred : RawTraceEntry → Bool) (tid : String) (v : List RawTraceEntry)
    (e : RawTraceEntry) (hl : l.lookup tid = some v) (he : e ∈ v)
    (hp : pred e = true) :
    ∃ v', ((l.map (fun p => (p.1, p.2.filter pred))).filter
      (fun p => p.2 ≠ [])).lookup tid = some v' ∧ e ∈ v' := by
  induction l with
  | nil => simp [List.lookup] at hl
  | cons p ps ih =>
    obtain ⟨k, b⟩ := p
    by_cases hk : tid = k
    · subst hk
      have hv : b = v := by simpa [List.lookup] using hl
      subst hv
      have hmem : e ∈ b.filter pred := List.mem_filter.mpr ⟨he, hp⟩
      have hne : b.filter pred ≠ [] := List.ne_nil_of_mem hmem
      refine ⟨b.filter pred, ?_, hmem⟩
      simp [List.filter_cons, hne, List.lookup]
    · have hb : (tid == k) = false := beq_eq_false_iff_ne.mpr hk
      have hl' : ps.lookup tid = some v := by simpa [List.lookup, hb] using hl
      obtain ⟨v', hlv, hev⟩ := ih hl'
      refine ⟨v', ?_, hev⟩
      by_cases hkeep : b.filter pred = []
      · simpa [List.filter_cons, hkeep] using hlv
      · simpa [List.filter_cons, hkeep, List.lookup, hb] using hlv

theorem lookup_cleanupRaw_sound (l : List (String × List RawTraceEntry))
    (pred : RawTraceEntry → Bool) (tid : String) (v : List RawTraceEntry)
    (hl : ((l.map (fun p => (p.1, p.2.filter pred))).filter
      (fun p => p.2 ≠ [])).lookup tid = some v) :
    ∀ e ∈ v, pred e = true := by
  induction l with
  | nil => simp [List.lookup] at hl
  | cons p ps ih =>
    obtain ⟨k, b⟩ := p
    simp only [List.map_cons, List.filter_cons] at hl
    by_cases hkeep : b.filter pred = []
    · rw [if_neg (by simpa using hkeep)] at hl
      exact ih hl
    · rw [if_pos (by simpa using hkeep)] at hl
      by_cases hk : tid = k
      · subst hk
        have hv : b.filter pred = v := by simpa [List.lookup] using hl
        intro x hx
        rw [← hv] at hx
        exact (List.mem_filter.mp hx).2
      · have hb : (tid == k) = false := beq_eq_false_iff_ne.mpr hk
        exact ih (by simpa [List.lookup, hb] using hl)

theorem lookup_rawAppend_self (l : List (String × List RawTraceEntry))
    (tid : String) (e : RawTraceEntry) :
    (rawAppend l tid e).lookup tid
      = some (((l.lookup tid).getD []) ++ [e]) := by
  induction l with
  | nil => simp [rawAppend, List.lookup]
  | cons p ps ih =>
    obtain ⟨k, b⟩ := p
    by_cases hk : k = tid
    · subst hk
      simp [rawAppend, List.lookup]
    · have hb : (tid == k) = false :=
        beq_eq_false_iff_ne.mpr (fun x => hk x.symm)
      simp [rawAppend, hk, List.lookup, hb, ih]

theorem lookup_rawAppend_ne (l : List (String × List RawTraceEntry))
    (tid tid' : String) (e : RawTraceEntry) (hne : tid' ≠ tid) :
    (rawAppend l tid e).lookup tid' = l.lookup tid' := by
  induction l with
  | nil => simp [rawAppend, List.lookup, beq_eq_false_iff_ne.mpr hne]
  | cons p ps ih =>
    obtain ⟨k, b⟩ := p
    by_cases hk : k = tid
    · subst hk
      simp [rawAppend, List.lookup, beq_eq_false_iff_ne.mpr hne]
    · by_cases h2 : tid' = k
      · subst h2
        simp [rawAppend, hk, List.lookup]
      · have hb2 : (tid' == k) = false := beq_eq_false_iff_ne.mpr h2
        simp [rawAppend, hk, List.lookup, hb2, ih]

theorem rawAppend_RawHasL (l : List (String × List RawTraceEntry))
    (tid tid' : String) (e e' : RawTraceEntry)
    (h : ∃ v, l.lookup tid = some v ∧ e ∈ v) :
    ∃ v, (rawAppend l tid' e').lookup tid = some v ∧ e ∈ v := by
  obtain ⟨v, hl, he⟩ := h
  by_cases hk : tid = tid'
  · subst hk
    refine ⟨(l.lookup tid).getD [] ++ [e'],
      lookup_rawAppend_self l tid e', ?_⟩
    rw [hl]
    exact List.mem_append_left _ he
  · exact ⟨v, by rw [lookup_rawAppend_ne l tid' tid e' hk]; exact hl, he⟩

theorem cleanup_RawHas (s : LLMTraceStore) (now : ℚ) (tid : String)
    (e : RawTraceEntry) (h : RawHas s tid e)
    (hb : now - e.recorded_at ≤ s.raw_ttl) :
    RawHas (s.cleanup now) tid e := by
  obtain ⟨v, hl, he⟩ := h
  obtain ⟨v', hlv, hev⟩ := lookup_cleanupRaw_mem s.raw
    (fun x => now - x.recorded_at ≤ s.raw_ttl) tid v e hl he
    (decide_eq_true hb)
  exact ⟨v', hlv, hev⟩

theorem cleanup_SumHas (s : LLMTraceStore) (now : ℚ) (tid : String)
    (e : SummaryTraceEntry) (h : SumHas s tid e)
    (hb : now - e.recorded_at ≤ s.summary_ttl) :
    SumHas (s.cleanup now) tid e := by
  have hp : (fun p : String × SummaryTraceEntry =>
      decide ¬ (now - p.2.recorded_at > s.summary_ttl)) (tid, e) = true := by
    simp only [decide_eq_true_eq]
    exact not_lt.mpr hb
  exact lookup_filter_keep s.summary _ tid e h hp

theorem applyOp_ttls (s : LLMTraceStore) (op : ℚ × TraceOp) :
    (s.applyOp op).raw_ttl = s.raw_ttl ∧
      (s.applyOp op).summary_ttl = s.summary_ttl := by
  obtain ⟨now, o⟩ := op
  cases o with
  | recRaw call => exact ⟨rfl, rfl⟩
  | recSum tid payload => exact ⟨rfl, rfl⟩
  | getT tid => exact ⟨rfl, rfl⟩

theorem applyOps_ttls (ops : List (ℚ × TraceOp)) (s : LLMTraceStore) :
    (s.applyOps ops).raw_ttl = s.raw_ttl ∧
      (s.applyOps ops).summary_ttl = s.summary_ttl := by
  induction ops generalizing s with
  | nil => exact ⟨rfl, rfl⟩
  | cons op ops ih =>
    obtain ⟨h1, h2⟩ := applyOp_ttls s op
    obtain ⟨h3, h4⟩ := ih (s.applyOp op)
    exact ⟨h3.trans h1, h4.trans h2⟩

theorem applyOp_RawHas (s : LLMTraceStore) (tid : String) (e : RawTraceEntry)
    (op : ℚ × TraceOp) (h : RawHas s tid e)
    (hb : op.1 - e.recorded_at ≤ s.raw_ttl) :
    RawHas (s.applyOp op) tid e := by
  obtain ⟨now, o⟩ := op
  cases o with
  | recRaw call =>
    have h' : RawHas
        { s with raw := rawAppend s.raw call.task_id (recordedRawEntry call now) }
        tid e :=
      rawAppend_RawHasL s.raw tid call.task_id e (recordedRawEntry call now) h
    exact cleanup_RawHas _ now tid e h' hb
  | recSum tid' payload =>
    have h' : RawHas
        { s with summary := assocSet s.summary tid' ⟨payload, now⟩ } tid e := h
    exact cleanup_RawHas _ now tid e h' hb
  | getT tq =>
    exact cleanup_RawHas s now tid e h hb

theorem applyOps_RawHas (ops : List (ℚ × TraceOp)) (s : LLMTraceStore)
    (tid : String) (e : RawTraceEntry) (h : RawHas s tid e)
    (hops : ∀ op ∈ ops, op.1 - e.recorded_at ≤ s.raw_ttl) :
    RawHas (s.applyOps ops) tid e := by
  induction ops generalizing s with
  | nil => exact h
  | cons op ops ih =>
    have h1 := applyOp_RawHas s tid e op h (hops op (by simp))
    have hraw : (s.applyOp op).raw_ttl = s.raw_ttl := (applyOp_ttls s op).1
    exact ih (s.applyOp op) h1
      (fun o ho => by rw [hraw]; exact hops o (by simp [ho]))

theorem applyOp_SumHas (s : LLMTraceStore) (tid : String)
    (e : SummaryTraceEntry) (op : ℚ × TraceOp) (h : SumHas s tid e)
    (hb : op.1 - e.recorded_at ≤ s.summary_ttl)
    (hop : opNoSummaryFor op.2 tid = true) :
    SumHas (s.applyOp op) tid e := by
  obtain ⟨now, o⟩ := op
  cases o with
  | recRaw call =>
    have h' : SumHas
        { s with raw := rawAppend s.raw call.task_id (recordedRawEntry call now) }
        tid e := h
    exact cleanup_SumHas _ now tid e h' hb
  | recSum tid' payload =>
    have hne : tid' ≠ tid := by
      simpa [opNoSummaryFor] using hop
    have h' : SumHas
        { s with summary := assocSet s.summary tid' ⟨payload, now⟩ } tid e := by
      show (assocSet s.summary tid' ⟨payload, now⟩).lookup tid = some e
      rw [lookup_assocSet_ne s.summary tid' tid ⟨payload, now⟩
        (fun x => hne x.symm)]
      exact h
    exact cleanup_SumHas _ now tid e h' hb
  | getT tq =>
    exact cleanup_SumHas s now tid e h hb

theorem applyOps_SumHas (ops : List (ℚ × TraceOp)) (s : LLMTraceStore)
    (tid : String) (e : SummaryTraceEntry) (h : SumHas s tid e)
    (hops : ∀ op ∈ ops, op.1 - e.recorded_at ≤ s.summary_ttl)
    (hns : opsNoSummaryFor ops tid = true) :
    SumHas (s.applyOps ops) tid e := by
  induction ops generalizing s with
  | nil => exact h
  | cons op ops ih =>
    have hcons : opNoSummaryFor op.2 tid = true ∧
        opsNoSummaryFor ops tid = true := by
      simpa [opsNoSummaryFor] using hns
    have h1 := applyOp_SumHas s tid e op h (hops op (by simp)) hcons.1
    have hsum : (s.applyOp op).summary_ttl = s.summary_ttl :=
      (applyOp_ttls s op).2
    exact ih (s.applyOp op) h1
      (fun o ho => by rw [hsum]; exact hops o (by simp [ho])) hcons.2

theorem record_raw_RawHas (s : LLMTraceStore) (t : ℚ) (call : LLMCall)
    (h0 : 0 ≤ s.raw_ttl) :
    RawHas (s.record_raw t call) call.task_id (recordedRawEntry call t) := by
  have h' : RawHas
      { s with raw := rawAppend s.raw call.task_id (recordedRawEntry call t) }
      call.task_id (recordedRawEntry call t) := by
    refine ⟨(s.raw.lookup call.task_id).getD [] ++ [recordedRawEntry call t],
      lookup_rawAppend_self s.raw call.task_id (recordedRawEntry call t), ?_⟩
    exact List.mem_append_right _ (by simp)
  have hb : t - (recordedRawEntry call t).recorded_at ≤ s.raw_ttl := by
    simpa [recordedRawEntry] using h0
  exact cleanup_RawHas _ t _ _ h' hb

theorem record_summary_SumHas (s : LLMTraceStore) (t : ℚ) (tid pl : String)
    (h0 : 0 ≤ s.summary_ttl) :
    SumHas (s.record_summary t tid pl) tid ⟨pl, t⟩ := by
  have h' : SumHas
      { s with summary := assocSet s.summary tid ⟨pl, t⟩ } tid ⟨pl, t⟩ :=
    lookup_assocSet s.summary tid ⟨pl, t⟩
  have hb : t - (SummaryTraceEntry.mk pl t).recorded_at ≤ s.summary_ttl := by
    simpa using h0
  exact cleanup_SumHas _ t _ _ h' hb

theorem get_trace_raw_mem (s : LLMTraceStore) (now : ℚ) (tid : String)
    (e : RawTraceEntry) (h : RawHas s tid e)
    (hb : now - e.recorded_at ≤ s.raw_ttl) :
    e.view ∈ ((s.get_trace now tid).1).raw := by
  obtain ⟨v, hl, he⟩ := cleanup_RawHas s now tid e h hb
  show e.view ∈ (((s.cleanup now).raw.lookup tid).getD []).map
    RawTraceEntry.view
  rw [hl]
  exact List.mem_map.mpr ⟨e, he, rfl⟩

theorem get_trace_raw_sound (s : LLMTraceStore) (now : ℚ) (tid : String) :
    ∀ v ∈ ((s.get_trace now tid).1).raw, now - v.recorded_at ≤ s.raw_ttl := by
  intro v hv
  have hv' : v ∈ (((s.cleanup now).raw.lookup tid).getD []).map
      RawTraceEntry.view := hv
  obtain ⟨e, he, hve⟩ := List.mem_map.mp hv'
  cases hlk : (s.cleanup now).raw.lookup tid with
  | none =>
    rw [hlk] at he
    simp at he
  | some w =>
    rw [hlk] at he
    simp only [Option.getD_some] at he
    have hlk' : ((s.raw.map (fun p => (p.1, p.2.filter
        (fun x => now - x.recorded_at ≤ s.raw_ttl)))).filter
        (fun p => p.2 ≠ [])).lookup tid = some w := hlk
    have hpred := lookup_cleanupRaw_sound s.raw
      (fun x => now - x.recorded_at ≤ s.raw_ttl) tid w hlk' e he
    have := of_decide_eq_true hpred
    rw [← hve]
    simpa [RawTraceEntry.view] using this

theorem get_trace_summary_eq (s : LLMTraceStore) (now : ℚ) (tid : String)
    (e : SummaryTraceEntry) (h : SumHas s tid e)
    (hb : now - e.recorded_at ≤ s.summary_ttl) :
    ((s.get_trace now tid).1).summary = some (e.payload, e.recorded_at) := by
  have h' := cleanup_SumHas s now tid e h hb
  show ((s.cleanup now).summary.lookup tid).map
    (fun x => (x.payload, x.recorded_at)) = some (e.payload, e.recorded_at)
  rw [show (s.cleanup now).summary.lookup tid = some e from h']
  rfl

theorem get_trace_summary_sound (s : LLMTraceStore) (now : ℚ) (tid : String)
    (pl : String) (trec : ℚ)
    (h : ((s.get_trace now tid).1).summary = some (pl, trec)) :
    now - trec ≤ s.summary_ttl := by
  have h' : ((s.cleanup now).summary.lookup tid).map
      (fun x => (x.payload, x.recorded_at)) = some (pl, trec) := h
  cases hlk : (s.cleanup now).summary.lookup tid with
  | none =>
    rw [hlk] at h'
    simp at h'
  | some e =>
    rw [hlk] at h'
    simp only [Option.map_some'] at h'
    have hlk' : (s.summary.filter (fun p =>
        ¬ (now - p.2.recorded_at > s.summary_ttl))).lookup tid = some e := hlk
    have hp := lookup_filter_sound s.summary _ tid e hlk'
    have hle := of_decide_eq_true hp
    have hrec : e.recorded_at = trec := by
      have := congrArg Prod.snd (Option.some.inj h')
      simpa using this
    rw [← hrec]
    exact not_lt.mp hle

/-- C8: a raw trace entry recorded at time `t` is present in
`get_trace` at every read time `T` with `T - t ≤ raw_ttl` (given a
nonnegative TTL and intervening operations whose clock readings also
lie within the raw window), and a raw view whose `recorded_at` lies
more than `raw_ttl` before the read time is never returned; a summary
recorded at time `t` and not overwritten follows the same rule against
`summary_ttl`; the two TTLs are evaluated independently against the
read-time clock. -/
theorem c8_trace_store_ttl :
    (∀ (s₀ : LLMTraceStore) (call : LLMCall) (t T : ℚ)
        (ops : List (ℚ × TraceOp)),
      0 ≤ s₀.raw_ttl →
      (∀ op ∈ ops, op.1 - t ≤ s₀.raw_ttl) →
      T - t ≤ s₀.raw_ttl →
      (recordedRawEntry call t).view ∈
        ((((s₀.record_raw t call).applyOps ops).get_trace T
          call.task_id).1).raw) ∧
    (∀ (s : LLMTraceStore) (tid : String) (T : ℚ) (v : RawTraceView),
      s.raw_ttl < T - v.recorded_at →
      v ∉ ((s.get_trace T tid).1).raw) ∧
    (∀ (s₀ : LLMTraceStore) (tid pl : String) (t T : ℚ)
        (ops : List (ℚ × TraceOp)),
      0 ≤ s₀.summary_ttl →
      (∀ op ∈ ops, op.1 - t ≤ s₀.summary_ttl) →
      opsNoSummaryFor ops tid = true →
      T - t ≤ s₀.summary_ttl →
      ((((s₀.record_summary t tid pl).applyOps ops).get_trace T
        tid).1).summary = some (pl, t)) ∧
    (∀ (s : LLMTraceStore) (tid pl : String) (T trec : ℚ),
      ((s.get_trace T tid).1).summary = some (pl, trec) →
      T - trec ≤ s.summary_ttl) := by
  refine ⟨?_, ?_, ?_, ?_⟩
  · intro s₀ call t T ops h0 hops hT
    have h1 := record_raw_RawHas s₀ t call h0
    have hr : (s₀.record_raw t call).raw_ttl = s₀.raw_ttl := rfl
    have h2 := applyOps_RawHas ops (s₀.record_raw t call) call.task_id
      (recordedRawEntry call t) h1
      (fun op ho => by
        rw [hr]
        simpa [recordedRawEntry] using hops op ho)
    have h3 : ((s₀.record_raw t call).applyOps ops).raw_ttl = s₀.raw_ttl :=
      (applyOps_ttls ops _).1.trans hr
    refine get_trace_raw_mem _ T call.task_id _ h2 ?_
    rw [h3]
    simpa [recordedRawEntry] using hT
  · intro s tid T v hgt hmem
    exact absurd (get_trace_raw_sound s T tid v hmem) (not_le.mpr hgt)
  · intro s₀ tid pl t T ops h0 hops hns hT
    have h1 := record_summary_SumHas s₀ t tid pl h0
    have hr : (s₀.record_summary t tid pl).summary_ttl = s₀.summary_ttl := rfl
    have h2 := applyOps_SumHas ops (s₀.record_summary t tid pl) tid
      ⟨pl, t⟩ h1
      (fun op ho => by
        rw [hr]
        simpa using hops op ho) hns
    have h3 : ((s₀.record_summary t tid pl).applyOps ops).summary_ttl
        = s₀.summary_ttl :=
      (applyOps_ttls ops _).2.trans hr
    have h4 := get_trace_summary_eq _ T tid ⟨pl, t⟩ h2
      (by rw [h3]; simpa using hT)
    simpa using h4
  · intro s tid pl T trec h
    exact get_trace_summary_sound s T tid pl trec h

/-- Witness for C8 on the retention scenario of
`test_trace_store_retention_and_schema` (raw TTL 10, summary TTL 20):
the raw entry recorded at clock 0 is returned at clock 5, gone at
clock 11, while the summary recorded at clock 0 is still returned at
clock 11 — each lifetime judged only against its own TTL. -/
theorem c8_trace_store_ttl_witness :
    ((recordedRawEntry fixtureTraceCall 0).view ∈
      ((((fixtureTraceStore.record_raw 0 fixtureTraceCall).applyOps
        [((0 : ℚ), TraceOp.recSum "task-1" "sov50")]).get_trace 5
        "task-1").1).raw) ∧
    ((recordedRawEntry fixtureTraceCall 0).view ∉
      (((fixtureTraceStore.record_raw 0 fixtureTraceCall).get_trace 11
        "task-1").1).raw) ∧
    (((((fixtureTraceStore.record_summary 0 "task-1" "sov50").applyOps
        [((0 : ℚ), TraceOp.recRaw fixtureTraceCall)]).get_trace 11
        "task-1").1).summary = some ("sov50", 0)) ∧
    ((11 : ℚ) - 0 ≤ fixtureTraceStore.summary_ttl) := by
  obtain ⟨h1, h2, h3, h4⟩ := c8_trace_store_ttl
  refine ⟨?_, ?_, ?_, ?_⟩
  · exact h1 fixtureTraceStore fixtureTraceCall 0 5
      [((0 : ℚ), TraceOp.recSum "task-1" "sov50")]
      (by with_unfolding_all decide) (by with_unfolding_all decide)
      (by with_unfolding_all decide)
  · exact h2 (fixtureTraceStore.record_raw 0 fixtureTraceCall) "task-1" 11
      (recordedRawEntry fixtureTraceCall 0).view
      (by with_unfolding_all decide)
  · exact h3 fixtureTraceStore "task-1" "sov50" 0 11
      [((0 : ℚ), TraceOp.recRaw fixtureTraceCall)]
      (by with_unfolding_all decide) (by with_unfolding_all decide)
      (by with_unfolding_all decide) (by with_unfolding_all decide)
  · exact h4 ((fixtureTraceStore.record_summary 0 "task-1"
      "sov50").applyOps [((0 : ℚ), TraceOp.recRaw fixtureTraceCall)])
      "task-1" "sov50" 11 0 (by with_unfolding_all decide)
